import Mathlib

/-!
# Authentication use case (`auth/internal/usecase/v1/auth.go`)

A shallow embedding of the `authUseCase` orchestrator: `Register`, `Login`,
`Refresh`, `ValidateToken` and `Logout`.  The use case owns no state of its
own; every effect goes through one of its three collaborators (user service,
token service, token repository) or through a library call (`bcrypt`,
`uuid.New`, `time.Now`).  Collaborators are therefore fields of the use case,
as in the Go struct, and act on an explicit world state.  Each operation
returns its Go result, the world state it leaves behind and the list of
collaborator calls it made, in program order.

The `context.Context` argument carries no data that the use case reads and is
left out.
-/

set_option linter.dupNamespace false

namespace Auth

/-! ## Data model -/

/-- Go `error` values that are not `nil`: the ten package-level sentinels of
`auth.go` (lines 18-29) and any other error value, produced outside the
package, identified by its message. -/
inductive Error where
  | ErrIncorrectPassword
  | ErrGetAccessToken
  | ErrGenerateRefreshToken
  | ErrSaveRefreshToken
  | ErrInvalidRefreshToken
  | ErrGenerateAccessToken
  | ErrFindRefreshToken
  | ErrDeleteRefreshToken
  | ErrCreateUser
  | ErrValidateToken
  | other (msg : String)
  deriving DecidableEq, Repr

/-- A `uuid.UUID`, represented by its canonical textual form (the only
observation the use case makes of a UUID is `String()`). -/
structure UUID where
  text : String
  deriving DecidableEq, Repr

/-- The `String()` method of `uuid.UUID`. -/
def UUID.String (u : UUID) : String := u.text

/-- The user record returned by the user service; the fields read by `Login`. -/
structure User where
  ID : UUID
  Role : String
  PasswordHash : String
  deriving DecidableEq, Repr

/-- The `entity.Token` refresh record built by `Login` (lines 79-84). -/
structure Token where
  ID : UUID
  UserID : UUID
  Token : String
  CreatedAt : Nat
  deriving DecidableEq, Repr

/-- The `dto.Tokens` pair returned by `Login` and `Register`. -/
structure Tokens where
  AccessToken : String
  RefreshToken : String
  deriving DecidableEq, Repr

/-- The `dto.RefreshTokenResponse` returned by `Refresh`. -/
structure RefreshTokenResponse where
  AccessToken : String
  deriving DecidableEq, Repr

/-! ## Collaborator interfaces -/

/-- The `user.UserService` methods used by the use case. -/
structure UserService (σ : Type) where
  CreateUser : String → String → String → σ → Option Error × σ
  GetUserByEmail : String → σ → Except Error User × σ

/-- The `tokengen.TokenService` methods used by the use case.  `ValidateToken`
returns `(userID, role)`. -/
structure TokenService (σ : Type) where
  GenerateAccessToken : String → String → σ → Except Error String × σ
  GenerateRefreshToken : String → String → σ → Except Error String × σ
  ValidateToken : String → σ → Except Error (String × String) × σ

/-- The `repository.TokenRepository` methods used by the use case. -/
structure TokenRepository (σ : Type) where
  Save : Token → σ → Option Error × σ
  FindByToken : String → σ → Except Error Token × σ
  Delete : String → σ → Option Error × σ

/-- Library calls made by the use case: `bcrypt.CompareHashAndPassword`
(hash first, password second; `none` is Go's `nil`), `uuid.New` and
`time.Now`. -/
structure Library (σ : Type) where
  CompareHashAndPassword : String → String → Option Error
  uuidNew : σ → UUID × σ
  timeNow : σ → Nat × σ

/-- The `authUseCase` struct (lines 31-35) together with the library it links
against. -/
structure authUseCase (σ : Type) where
  tokenRepo : TokenRepository σ
  userService : UserService σ
  tokenService : TokenService σ
  lib : Library σ

/-- One collaborator or library call, with its arguments. -/
inductive Call where
  | CreateUser (username email password : String)
  | GetUserByEmail (email : String)
  | CompareHashAndPassword (passwordHash password : String)
  | GenerateAccessToken (userID role : String)
  | GenerateRefreshToken (userID role : String)
  | ValidateToken (token : String)
  | uuidNew
  | timeNow
  | Save (token : Token)
  | FindByToken (token : String)
  | Delete (id : String)
  deriving DecidableEq, Repr

/-- What running an operation yields: the Go return value, the world state
afterwards and the calls made, in order. -/
structure Outcome (σ α : Type) where
  result : α
  state : σ
  calls : List Call

/-! ## The operations of `auth.go` -/

variable {σ : Type}

/-- Go `validatePassword` (lines 96-98). -/
def validatePassword (lib : Library σ) (password passwordHash : String) : Bool :=
  (lib.CompareHashAndPassword passwordHash password).isNone

/-- Go `authUseCase.Login` (lines 54-94). -/
def authUseCase.Login (uc : authUseCase σ) (email password : String) (s : σ) :
    Outcome σ (Except Error Tokens) :=
  match uc.userService.GetUserByEmail email s with
  | (.error err, s1) => ⟨.error err, s1, [.GetUserByEmail email]⟩
  | (.ok user, s1) =>
    if !validatePassword uc.lib password user.PasswordHash then
      ⟨.error .ErrIncorrectPassword, s1,
        [.GetUserByEmail email, .CompareHashAndPassword user.PasswordHash password]⟩
    else
      let userID := user.ID.String
      let role := user.Role
      match uc.tokenService.GenerateAccessToken userID role s1 with
      | (.error _, s2) =>
        ⟨.error .ErrGetAccessToken, s2,
          [.GetUserByEmail email, .CompareHashAndPassword user.PasswordHash password,
           .GenerateAccessToken userID role]⟩
      | (.ok accessToken, s2) =>
        match uc.tokenService.GenerateRefreshToken userID role s2 with
        | (.error _, s3) =>
          ⟨.error .ErrGenerateRefreshToken, s3,
            [.GetUserByEmail email, .CompareHashAndPassword user.PasswordHash password,
             .GenerateAccessToken userID role, .GenerateRefreshToken userID role]⟩
        | (.ok refreshToken, s3) =>
          let token : Token :=
            { ID := (uc.lib.uuidNew s3).1
              UserID := user.ID
              Token := refreshToken
              CreatedAt := (uc.lib.timeNow (uc.lib.uuidNew s3).2).1 }
          match uc.tokenRepo.Save token (uc.lib.timeNow (uc.lib.uuidNew s3).2).2 with
          | (some _, s6) =>
            ⟨.error .ErrSaveRefreshToken, s6,
              [.GetUserByEmail email, .CompareHashAndPassword user.PasswordHash password,
               .GenerateAccessToken userID role, .GenerateRefreshToken userID role,
               .uuidNew, .timeNow, .Save token]⟩
          | (none, s6) =>
            ⟨.ok { AccessToken := accessToken, RefreshToken := refreshToken }, s6,
              [.GetUserByEmail email, .CompareHashAndPassword user.PasswordHash password,
               .GenerateAccessToken userID role, .GenerateRefreshToken userID role,
               .uuidNew, .timeNow, .Save token]⟩

/-- Go `authUseCase.Register` (lines 45-52). -/
def authUseCase.Register (uc : authUseCase σ) (username email password : String) (s : σ) :
    Outcome σ (Except Error Tokens) :=
  match uc.userService.CreateUser username email password s with
  | (some _, s1) => ⟨.error .ErrCreateUser, s1, [.CreateUser username email password]⟩
  | (none, s1) =>
    let o := uc.Login email password s1
    ⟨o.result, o.state, .CreateUser username email password :: o.calls⟩

/-- Go `authUseCase.Refresh` (lines 100-114). -/
def authUseCase.Refresh (uc : authUseCase σ) (refreshToken : String) (s : σ) :
    Outcome σ (Except Error RefreshTokenResponse) :=
  match uc.tokenService.ValidateToken refreshToken s with
  | (.error _, s1) => ⟨.error .ErrInvalidRefreshToken, s1, [.ValidateToken refreshToken]⟩
  | (.ok (userID, role), s1) =>
    match uc.tokenService.GenerateAccessToken userID role s1 with
    | (.error _, s2) =>
      ⟨.error .ErrGenerateAccessToken, s2,
        [.ValidateToken refreshToken, .GenerateAccessToken userID role]⟩
    | (.ok newAccessToken, s2) =>
      ⟨.ok { AccessToken := newAccessToken }, s2,
        [.ValidateToken refreshToken, .GenerateAccessToken userID role]⟩

/-- Go `authUseCase.ValidateToken` (lines 116-124).  The Go function returns
`(userID, role, err)`; the failing return `("", "", ErrValidateToken)` is kept
as a triple so that the empty strings are visible. -/
def authUseCase.ValidateToken (uc : authUseCase σ) (token : String) (s : σ) :
    Outcome σ (String × String × Option Error) :=
  match uc.tokenService.ValidateToken token s with
  | (.error _, s1) => ⟨("", "", some .ErrValidateToken), s1, [.ValidateToken token]⟩
  | (.ok (userID, role), s1) => ⟨(userID, role, none), s1, [.ValidateToken token]⟩

/-- Go `authUseCase.Logout` (lines 126-140); `none` is the `nil` error. -/
def authUseCase.Logout (uc : authUseCase σ) (refreshToken : String) (s : σ) :
    Outcome σ (Option Error) :=
  match uc.tokenRepo.FindByToken refreshToken s with
  | (.error _, s1) => ⟨some .ErrFindRefreshToken, s1, [.FindByToken refreshToken]⟩
  | (.ok token, s1) =>
    let tokenID := token.ID.String
    match uc.tokenRepo.Delete tokenID s1 with
    | (some _, s2) =>
      ⟨some .ErrDeleteRefreshToken, s2, [.FindByToken refreshToken, .Delete tokenID]⟩
    | (none, s2) => ⟨none, s2, [.FindByToken refreshToken, .Delete tokenID]⟩

/-- The refresh record `Login` builds (lines 79-84) for `user` and the freshly
generated refresh token, in the world `s3` left by the token service. -/
def authUseCase.newToken (uc : authUseCase σ) (user : User) (refreshToken : String) (s3 : σ) :
    Token :=
  { ID := (uc.lib.uuidNew s3).1
    UserID := user.ID
    Token := refreshToken
    CreatedAt := (uc.lib.timeNow (uc.lib.uuidNew s3).2).1 }

/-- The world in which `Login` calls `Save`: after `uuid.New` and `time.Now`. -/
def authUseCase.atSave (uc : authUseCase σ) (s3 : σ) : σ :=
  (uc.lib.timeNow (uc.lib.uuidNew s3).2).2

/-- The calls of a `Login` that gets as far as `Save`. -/
def authUseCase.loginCalls (email password : String) (user : User) (record : Token) : List Call :=
  [.GetUserByEmail email, .CompareHashAndPassword user.PasswordHash password,
   .GenerateAccessToken user.ID.String user.Role, .GenerateRefreshToken user.ID.String user.Role,
   .uuidNew, .timeNow, .Save record]

/-! ## The refresh-token store and the assembled system

The token repository's implementation (`auth/internal/repository`) is not part
of the sources at hand.  It is modelled from the design document as an
in-memory table; everything else the use case talks to stays abstract. -/

/-- Modelled from the spec: the `PersistenceError` of the RefreshTokenStore
(`auth/internal/repository`, missing), raised when `Save` meets a key that is
already taken. -/
def RefreshTokenStore.PersistenceError : Error := .other "persistence error"

/-- Modelled from the spec: the `NotFoundError` of the RefreshTokenStore
(`auth/internal/repository`, missing). -/
def RefreshTokenStore.NotFoundError : Error := .other "not found"

/-- Modelled from the spec: `RefreshTokenStore.Save` (`auth/internal/repository`,
missing).  Section 2: the store "persists issued refresh-token records keyed by
token value/ID"; section 4.3: Save "inserts a new RefreshRecord; fails with
PersistenceError on storage failure.  Must not silently overwrite an existing
record for the same token value."  A record whose token value or ID is already
a key of the table is refused with `PersistenceError`; otherwise the record is
added and no stored record is touched. -/
def RefreshTokenStore.Save (record : Token) (store : List Token) : Except Error (List Token) :=
  if store.any (fun r => r.Token == record.Token || r.ID == record.ID) then
    .error RefreshTokenStore.PersistenceError
  else
    .ok (store ++ [record])

/-- Modelled from the spec: `RefreshTokenStore.FindByValue`, Go `FindByToken`
(`auth/internal/repository`, missing).  Section 4.3: "fails with NotFoundError
if absent". -/
def RefreshTokenStore.FindByToken (token : String) (store : List Token) : Except Error Token :=
  match store.find? (fun r => r.Token == token) with
  | some r => .ok r
  | none => .error RefreshTokenStore.NotFoundError

/-- Modelled from the spec: `RefreshTokenStore.Delete` (`auth/internal/repository`,
missing).  Section 4.3: "idempotent removal; fails with PersistenceError only
on storage failure, not on already absent".  Removes the record whose ID has
the given textual form. -/
def RefreshTokenStore.Delete (id : String) (store : List Token) : List Token :=
  store.filter (fun r => r.ID.String != id)

/-- The world the use case runs in: the refresh-token table and the state of
everything outside it (user directory, token service, clock, random source,
health of the storage backend). -/
structure Sys (ε : Type) where
  store : List Token
  ext : ε

/-- The collaborators outside the refresh-token table.  `storageFailure` is
asked once per repository call and says whether that call hits a storage
failure (section 4.3, "fails with PersistenceError on storage failure"). -/
structure Ext (ε : Type) where
  userService : UserService ε
  tokenService : TokenService ε
  lib : Library ε
  storageFailure : ε → Option Error × ε

variable {ε : Type}

/-- Runs a call of an outside collaborator in the assembled world: it sees
and changes only the outside state. -/
def Sys.call {α : Type} (f : ε → α × ε) (s : Sys ε) : α × Sys ε :=
  ((f s.ext).1, { store := s.store, ext := (f s.ext).2 })

/-- The token repository over the modelled table. -/
def Ext.tokenRepo (x : Ext ε) : TokenRepository (Sys ε) where
  Save := fun record s =>
    match x.storageFailure s.ext with
    | (some err, e) => (some err, { store := s.store, ext := e })
    | (none, e) =>
      match RefreshTokenStore.Save record s.store with
      | .error err => (some err, { store := s.store, ext := e })
      | .ok store => (none, { store := store, ext := e })
  FindByToken := fun token s =>
    match x.storageFailure s.ext with
    | (some err, e) => (.error err, { store := s.store, ext := e })
    | (none, e) => (RefreshTokenStore.FindByToken token s.store, { store := s.store, ext := e })
  Delete := fun id s =>
    match x.storageFailure s.ext with
    | (some err, e) => (some err, { store := s.store, ext := e })
    | (none, e) => (none, { store := RefreshTokenStore.Delete id s.store, ext := e })

/-- The use case wired as `NewAuthUseCase` does (lines 37-43): the modelled
repository plus the outside collaborators. -/
def Ext.useCase (x : Ext ε) : authUseCase (Sys ε) where
  tokenRepo := x.tokenRepo
  userService :=
    { CreateUser := fun username email password =>
        Sys.call (x.userService.CreateUser username email password)
      GetUserByEmail := fun email => Sys.call (x.userService.GetUserByEmail email) }
  tokenService :=
    { GenerateAccessToken := fun userID role =>
        Sys.call (x.tokenService.GenerateAccessToken userID role)
      GenerateRefreshToken := fun userID role =>
        Sys.call (x.tokenService.GenerateRefreshToken userID role)
      ValidateToken := fun token => Sys.call (x.tokenService.ValidateToken token) }
  lib :=
    { CompareHashAndPassword := x.lib.CompareHashAndPassword
      uuidNew := Sys.call x.lib.uuidNew
      timeNow := Sys.call x.lib.timeNow }

/-- The table is keyed by token value and by ID (section 2): no two records
share a token value, and no two share an ID. -/
def Keyed (store : List Token) : Prop :=
  (store.map (fun r => r.Token)).Nodup ∧ (store.map (fun r => r.ID)).Nodup

/-- The states the system can be in: it starts with an empty table, and then
any of the five operations runs, or the outside world moves on by itself. -/
inductive Reachable (x : Ext ε) : Sys ε → Prop where
  | init (e : ε) : Reachable x { store := [], ext := e }
  | outside (s : Sys ε) (e : ε) : Reachable x s → Reachable x { store := s.store, ext := e }
  | Register (s : Sys ε) (username email password : String) :
      Reachable x s → Reachable x (x.useCase.Register username email password s).state
  | Login (s : Sys ε) (email password : String) :
      Reachable x s → Reachable x (x.useCase.Login email password s).state
  | Refresh (s : Sys ε) (refreshToken : String) :
      Reachable x s → Reachable x (x.useCase.Refresh refreshToken s).state
  | ValidateToken (s : Sys ε) (token : String) :
      Reachable x s → Reachable x (x.useCase.ValidateToken token s).state
  | Logout (s : Sys ε) (refreshToken : String) :
      Reachable x s → Reachable x (x.useCase.Logout refreshToken s).state

/-! ## A small deployment

A concrete outside world, used to run the operations on actual inputs: a user
directory held in a list, a token service whose tokens spell out their
claims, a stream of fresh UUIDs and a clock. -/

namespace Demo

/-- The kind tag a token of the demo token service carries. -/
inductive Kind where
  | access
  | refresh
  deriving DecidableEq, Repr

/-- State of the demo world outside the refresh-token table. -/
structure World where
  users : List (String × User)
  uuids : List UUID
  clock : Nat
  accessQuota : Nat
  serial : Nat
  storageDown : Bool
  deriving DecidableEq, Repr

/-- The demo password hash: the password between brackets. -/
def hash (password : String) : String := "[" ++ password ++ "]"

/-- Demo stand-in for `bcrypt.CompareHashAndPassword`. -/
def CompareHashAndPassword (passwordHash password : String) : Option Error :=
  if passwordHash = hash password then none else some (.other "hash mismatch")

/-- Draws the next UUID of the stream. -/
def uuidNew (w : World) : UUID × World :=
  (w.uuids.headD ⟨""⟩, { w with uuids := w.uuids.tail })

/-- Reads the clock, which then ticks. -/
def timeNow (w : World) : Nat × World :=
  (w.clock, { w with clock := w.clock + 1 })

/-- Demo user directory: lookup by email. -/
def GetUserByEmail (email : String) (w : World) : Except Error User × World :=
  match w.users.lookup email with
  | some u => (.ok u, w)
  | none => (.error (.other "user not found"), w)

/-- Demo user directory: creation; an email can be registered once. -/
def CreateUser (_username email password : String) (w : World) : Option Error × World :=
  match w.users.lookup email with
  | some _ => (some (.other "user already exists"), w)
  | none =>
    (none, { w with
      users := w.users ++ [(email, { ID := (uuidNew w).1, Role := "user", PasswordHash := hash password })]
      uuids := (uuidNew w).2.uuids })

/-- The characters of a demo token: the kind tag, one plus per unit of the
serial number, one dot per character of the subject, a bar, the subject, the
role. -/
def encode (tag : Char) (serial : Nat) (userID role : String) : String :=
  ⟨tag :: (List.replicate serial '+' ++
    (List.replicate userID.length '.' ++ '|' :: (userID.data ++ role.data)))⟩

/-- Demo access tokens; the signer never fails. -/
def GenerateAccessToken (userID role : String) (w : World) : Except Error String × World :=
  (.ok (encode 'A' 0 userID role), w)

/-- Demo access tokens of a rationed signer: issued while the quota lasts. -/
def GenerateAccessTokenRationed (userID role : String) (w : World) :
    Except Error String × World :=
  if w.accessQuota = 0 then (.error (.other "signer unavailable"), w)
  else (.ok (encode 'A' 0 userID role), { w with accessQuota := w.accessQuota - 1 })

/-- Demo refresh tokens: each carries the next serial number, so no two are
alike. -/
def GenerateRefreshToken (userID role : String) (w : World) : Except Error String × World :=
  (.ok (encode 'R' w.serial userID role), { w with serial := w.serial + 1 })

/-- The kind tag of a demo token, if it has one. -/
def kind (token : String) : Option Kind :=
  match token.data with
  | 'A' :: _ => some .access
  | 'R' :: _ => some .refresh
  | _ => none

/-- Demo token verification: reads the claims back from the token; like the
Go interface it reports subject and role only, for either kind. -/
def ValidateToken (token : String) (w : World) : Except Error (String × String) × World :=
  match kind token, token.data with
  | some _, _ :: numbered =>
    match (numbered.dropWhile (fun c => c == '+')).dropWhile (fun c => c == '.') with
    | _ :: claims =>
      (.ok (⟨claims.take
              ((numbered.dropWhile (fun c => c == '+')).takeWhile (fun c => c == '.')).length⟩,
            ⟨claims.drop
              ((numbered.dropWhile (fun c => c == '+')).takeWhile (fun c => c == '.')).length⟩),
        w)
    | [] => (.error (.other "malformed token"), w)
  | _, _ => (.error (.other "malformed token"), w)

/-- Demo storage health. -/
def storageFailure (w : World) : Option Error × World :=
  if w.storageDown then (some (.other "storage down"), w) else (none, w)

/-- The demo collaborators. -/
def ext : Ext World where
  userService := { CreateUser := CreateUser, GetUserByEmail := GetUserByEmail }
  tokenService :=
    { GenerateAccessToken := GenerateAccessToken
      GenerateRefreshToken := GenerateRefreshToken
      ValidateToken := ValidateToken }
  lib := { CompareHashAndPassword := CompareHashAndPassword, uuidNew := uuidNew, timeNow := timeNow }
  storageFailure := storageFailure

/-- The demo collaborators with the rationed signer. -/
def rationed : Ext World where
  userService := { CreateUser := CreateUser, GetUserByEmail := GetUserByEmail }
  tokenService :=
    { GenerateAccessToken := GenerateAccessTokenRationed
      GenerateRefreshToken := GenerateRefreshToken
      ValidateToken := ValidateToken }
  lib := { CompareHashAndPassword := CompareHashAndPassword, uuidNew := uuidNew, timeNow := timeNow }
  storageFailure := storageFailure

/-- Alice's directory record. -/
def alice : User := { ID := ⟨"u-1"⟩, Role := "user", PasswordHash := hash "Secret123!" }

/-- A world in which alice is registered, with the given access-token quota. -/
def world (quota : Nat) : World :=
  { users := [("alice@x.com", alice)]
    uuids := [⟨"t-1"⟩, ⟨"t-2"⟩, ⟨"t-3"⟩]
    clock := 100
    accessQuota := quota
    serial := 0
    storageDown := false }

/-- The demo system before any login. -/
def start (quota : Nat) : Sys World := { store := [], ext := world quota }

end Demo

/-- Whether the error is one of the ten package-level sentinels of `auth.go`
(lines 18-29). -/
def Error.isSentinel : Error → Bool
  | .other _ => false
  | _ => true

end Auth

/-! # User use case (`user/internal/usecases/user.go`)

`userUseCase.CreateUser` guards the repository's `CreateUser` with a lookup
and two format checks.  The format checks are Go regular expressions; the
part of the `regexp` syntax they use is embedded below, with a matcher that
enumerates what can remain of the text after a match of its beginning. -/

namespace Users

/-! ## Regular expressions -/

/-- A bracket expression such as `[a-z0-9_]`: a list of inclusive ranges,
a single character being a range of its own. -/
abbrev CharClass := List (Char × Char)

/-- Whether the character lies in one of the ranges of the class. -/
def CharClass.has (cls : CharClass) (c : Char) : Bool :=
  cls.any (fun r => decide (r.1 ≤ c) && decide (c ≤ r.2))

/-- The `regexp` syntax used by `user.go`: character classes, literal
characters, concatenation, and repetition `r{min,}` (`r+` is `r{1,}`). -/
inductive Regexp where
  | charClass (cls : CharClass)
  | literal (c : Char)
  | concat (r s : Regexp)
  | repeatMin (min : Nat) (r : Regexp)
  deriving Repr

/-- Runs a matcher `n` times in a row, collecting the texts left over. -/
def iterate (f : List Char → List (List Char)) : Nat → List Char → List (List Char)
  | 0, text => [text]
  | n + 1, text => (f text).flatMap (iterate f n)

/-- Runs a matcher any number of times, collecting the texts left over; a
round that consumes nothing adds nothing, so `fuel` rounds suffice for a
text of `fuel` characters. -/
def star (f : List Char → List (List Char)) : Nat → List Char → List (List Char)
  | 0, text => [text]
  | fuel + 1, text =>
    text :: ((f text).filter (fun left => left.length < text.length)).flatMap (star f fuel)

/-- All the ways the expression can match a beginning of the text, each
given by the text that is left over. -/
def Regexp.rests : Regexp → List Char → List (List Char)
  | .charClass cls, c :: left => if cls.has c then [left] else []
  | .charClass _, [] => []
  | .literal c, d :: left => if d = c then [left] else []
  | .literal _, [] => []
  | .concat r s, text => (r.rests text).flatMap s.rests
  | .repeatMin min r, text =>
    (iterate r.rests min text).flatMap (fun left => star r.rests left.length left)

/-- Go `(*Regexp).MatchString` for a pattern written `^r$` (no flags): `^`
and `$` pin the match to the beginning and the end of the text, so the text
matches when `r` can consume all of it. -/
def Regexp.MatchString (r : Regexp) (s : String) : Bool :=
  (r.rests s.data).contains []

/-- The expression between `^` and `$` in
`^[a-z0-9._%+-]+@[a-z0-9.-]+\.[a-z]{2,}$` (line 49). -/
def emailPattern : Regexp :=
  .concat
    (.repeatMin 1
      (.charClass [('a', 'z'), ('0', '9'), ('.', '.'), ('_', '_'), ('%', '%'), ('+', '+'),
        ('-', '-')]))
    (.concat (.literal '@')
      (.concat (.repeatMin 1 (.charClass [('a', 'z'), ('0', '9'), ('.', '.'), ('-', '-')]))
        (.concat (.literal '.') (.repeatMin 2 (.charClass [('a', 'z')])))))

/-- The expression between `^` and `$` in `^[a-zA-Z][a-zA-Z0-9_]{4,}$`
(line 54). -/
def usernamePattern : Regexp :=
  .concat (.charClass [('a', 'z'), ('A', 'Z')])
    (.repeatMin 4 (.charClass [('a', 'z'), ('A', 'Z'), ('0', '9'), ('_', '_')]))

/-- Go `isValidEmail` (lines 48-51). -/
def isValidEmail (email : String) : Bool :=
  emailPattern.MatchString email

/-- Go `isValidUsername` (lines 53-56). -/
def isValidUsername (username : String) : Bool :=
  usernamePattern.MatchString username

/-! ## The two formats in words -/

/-- A lower-case ASCII letter. -/
def isLower (c : Char) : Bool := decide ('a' ≤ c) && decide (c ≤ 'z')

/-- An ASCII letter. -/
def isASCIILetter (c : Char) : Bool :=
  isLower c || (decide ('A' ≤ c) && decide (c ≤ 'Z'))

/-- An ASCII digit. -/
def isASCIIDigit (c : Char) : Bool := decide ('0' ≤ c) && decide (c ≤ '9')

/-- The username format in words: at least 5 characters, the first an ASCII
letter, every other one an ASCII letter, a digit or an underscore. -/
def usernameFormat (username : String) : Bool :=
  decide (5 ≤ username.length) &&
    match username.data with
    | [] => false
    | c :: others =>
      isASCIILetter c && others.all (fun d => isASCIILetter d || isASCIIDigit d || d == '_')

/-- The email format in words: a non-empty name of lower-case letters, digits
and `._%+-`, an at sign, a non-empty domain of lower-case letters, digits, dots
and hyphens, a dot, and two or more lower-case letters. -/
def emailFormat (email : String) : Prop :=
  ∃ name domain tld : List Char,
    email.data = name ++ '@' :: (domain ++ '.' :: tld) ∧
    name ≠ [] ∧
    (∀ c ∈ name, isLower c || isASCIIDigit c || c == '.' || c == '_' || c == '%' ||
      c == '+' || c == '-') ∧
    domain ≠ [] ∧
    (∀ c ∈ domain, isLower c || isASCIIDigit c || c == '.' || c == '-') ∧
    2 ≤ tld.length ∧
    ∀ c ∈ tld, isLower c

/-! ## The use case -/

/-- Go `error` values of this package: made on the spot by `errors.New`, or
handed up from the repository; told apart by their message. -/
structure Error where
  msg : String
  deriving DecidableEq, Repr

/-- The `entities.User` record. -/
structure User where
  ID : Auth.UUID
  Username : String
  Email : String
  PasswordHash : String
  deriving DecidableEq, Repr

/-- The `repositories.UserRepository` methods that `CreateUser` calls.
`GetUserByID` returns a pointer, `none` for `nil`, and an error. -/
structure UserRepository (σ : Type) where
  GetUserByID : Auth.UUID → σ → (Option User × Option Error) × σ
  CreateUser : User → σ → Option Error × σ

/-- The `userUseCase` struct (lines 20-22). -/
structure userUseCase (σ : Type) where
  repo : UserRepository σ

/-- One repository call, with its arguments. -/
inductive Call where
  | GetUserByID (id : Auth.UUID)
  | CreateUser (user : User)
  deriving DecidableEq, Repr

/-- What running `CreateUser` yields: the Go return value (`none` is `nil`),
the world state afterwards and the repository calls made, in order. -/
structure Outcome (σ : Type) where
  result : Option Error
  state : σ
  calls : List Call

/-- Go `userUseCase.CreateUser` (lines 30-46).  The error that `GetUserByID`
returns is dropped, as in the source. -/
def userUseCase.CreateUser {σ : Type} (u : userUseCase σ) (user : User) (s : σ) : Outcome σ :=
  match u.repo.GetUserByID user.ID s with
  | ((some _, _), s1) => ⟨some ⟨"user already exists"⟩, s1, [.GetUserByID user.ID]⟩
  | ((none, _), s1) =>
    if !isValidEmail user.Email then
      ⟨some ⟨"invalid email format"⟩, s1, [.GetUserByID user.ID]⟩
    else if !isValidUsername user.Username then
      ⟨some ⟨"invalid username format"⟩, s1, [.GetUserByID user.ID]⟩
    else
      ⟨(u.repo.CreateUser user s1).1, (u.repo.CreateUser user s1).2,
        [.GetUserByID user.ID, .CreateUser user]⟩

/-! ## A small user table -/

namespace Demo

/-- A repository held in a list. -/
def repo : UserRepository (List User) where
  GetUserByID := fun id users =>
    match users.find? (fun u => u.ID == id) with
    | some u => ((some u, none), users)
    | none => ((none, some ⟨"sql: no rows in result set"⟩), users)
  CreateUser := fun user users => (none, users ++ [user])

/-- The use case over the list repository. -/
def useCase : userUseCase (List User) := { repo := repo }

/-- A user that passes every check. -/
def alice : User :=
  { ID := ⟨"u-1"⟩, Username := "alice_1", Email := "alice@x.com", PasswordHash := "h" }

end Demo

end Users

namespace Auth

/-! ## How `Login` runs, branch by branch -/

section LoginBranches

variable {σ : Type} (uc : authUseCase σ)

theorem Login_of_directory_error {email password : String} {s s1 : σ} {err : Error}
    (hget : uc.userService.GetUserByEmail email s = (.error err, s1)) :
    uc.Login email password s = ⟨.error err, s1, [.GetUserByEmail email]⟩ := by
  simp only [authUseCase.Login, hget]

theorem Login_of_wrong_password {email password : String} {s s1 : σ} {user : User}
    (hget : uc.userService.GetUserByEmail email s = (.ok user, s1))
    (hpw : validatePassword uc.lib password user.PasswordHash = false) :
    uc.Login email password s =
      ⟨.error .ErrIncorrectPassword, s1,
        [.GetUserByEmail email, .CompareHashAndPassword user.PasswordHash password]⟩ := by
  simp [authUseCase.Login, hget, hpw]

theorem Login_of_access_error {email password : String} {s s1 s2 : σ} {user : User} {err : Error}
    (hget : uc.userService.GetUserByEmail email s = (.ok user, s1))
    (hpw : validatePassword uc.lib password user.PasswordHash = true)
    (hacc : uc.tokenService.GenerateAccessToken user.ID.String user.Role s1 = (.error err, s2)) :
    uc.Login email password s =
      ⟨.error .ErrGetAccessToken, s2,
        [.GetUserByEmail email, .CompareHashAndPassword user.PasswordHash password,
         .GenerateAccessToken user.ID.String user.Role]⟩ := by
  simp [authUseCase.Login, hget, hpw, hacc]

theorem Login_of_refresh_error {email password : String} {s s1 s2 s3 : σ} {user : User}
    {a : String} {err : Error}
    (hget : uc.userService.GetUserByEmail email s = (.ok user, s1))
    (hpw : validatePassword uc.lib password user.PasswordHash = true)
    (hacc : uc.tokenService.GenerateAccessToken user.ID.String user.Role s1 = (.ok a, s2))
    (href : uc.tokenService.GenerateRefreshToken user.ID.String user.Role s2 = (.error err, s3)) :
    uc.Login email password s =
      ⟨.error .ErrGenerateRefreshToken, s3,
        [.GetUserByEmail email, .CompareHashAndPassword user.PasswordHash password,
         .GenerateAccessToken user.ID.String user.Role,
         .GenerateRefreshToken user.ID.String user.Role]⟩ := by
  simp [authUseCase.Login, hget, hpw, hacc, href]

theorem Login_of_save_error {email password : String} {s s1 s2 s3 s6 : σ} {user : User}
    {a r : String} {err : Error}
    (hget : uc.userService.GetUserByEmail email s = (.ok user, s1))
    (hpw : validatePassword uc.lib password user.PasswordHash = true)
    (hacc : uc.tokenService.GenerateAccessToken user.ID.String user.Role s1 = (.ok a, s2))
    (href : uc.tokenService.GenerateRefreshToken user.ID.String user.Role s2 = (.ok r, s3))
    (hsave : uc.tokenRepo.Save (uc.newToken user r s3) (uc.atSave s3) = (some err, s6)) :
    uc.Login email password s =
      ⟨.error .ErrSaveRefreshToken, s6,
        authUseCase.loginCalls email password user (uc.newToken user r s3)⟩ := by
  simp only [authUseCase.newToken, authUseCase.atSave] at hsave
  simp [authUseCase.Login, hget, hpw, hacc, href, hsave, authUseCase.loginCalls,
    authUseCase.newToken]

theorem Login_of_save_ok {email password : String} {s s1 s2 s3 s6 : σ} {user : User}
    {a r : String}
    (hget : uc.userService.GetUserByEmail email s = (.ok user, s1))
    (hpw : validatePassword uc.lib password user.PasswordHash = true)
    (hacc : uc.tokenService.GenerateAccessToken user.ID.String user.Role s1 = (.ok a, s2))
    (href : uc.tokenService.GenerateRefreshToken user.ID.String user.Role s2 = (.ok r, s3))
    (hsave : uc.tokenRepo.Save (uc.newToken user r s3) (uc.atSave s3) = (none, s6)) :
    uc.Login email password s =
      ⟨.ok { AccessToken := a, RefreshToken := r }, s6,
        authUseCase.loginCalls email password user (uc.newToken user r s3)⟩ := by
  simp only [authUseCase.newToken, authUseCase.atSave] at hsave
  simp [authUseCase.Login, hget, hpw, hacc, href, hsave, authUseCase.loginCalls,
    authUseCase.newToken]

/-- A successful `Login` went through every step. -/
theorem Login_ok_inv {email password : String} {s : σ} {toks : Tokens}
    (h : (uc.Login email password s).result = .ok toks) :
    ∃ user s1 s2 s3 s6,
      uc.userService.GetUserByEmail email s = (.ok user, s1) ∧
      validatePassword uc.lib password user.PasswordHash = true ∧
      uc.tokenService.GenerateAccessToken user.ID.String user.Role s1 =
        (.ok toks.AccessToken, s2) ∧
      uc.tokenService.GenerateRefreshToken user.ID.String user.Role s2 =
        (.ok toks.RefreshToken, s3) ∧
      uc.tokenRepo.Save (uc.newToken user toks.RefreshToken s3) (uc.atSave s3) = (none, s6) ∧
      uc.Login email password s =
        ⟨.ok toks, s6,
          authUseCase.loginCalls email password user (uc.newToken user toks.RefreshToken s3)⟩ := by
  rcases hget : uc.userService.GetUserByEmail email s with ⟨err | user, s1⟩
  · rw [Login_of_directory_error uc hget] at h
    simp at h
  · cases hpw : validatePassword uc.lib password user.PasswordHash
    · rw [Login_of_wrong_password uc hget hpw] at h
      simp at h
    · rcases hacc : uc.tokenService.GenerateAccessToken user.ID.String user.Role s1
        with ⟨err | a, s2⟩
      · rw [Login_of_access_error uc hget hpw hacc] at h
        simp at h
      · rcases href : uc.tokenService.GenerateRefreshToken user.ID.String user.Role s2
          with ⟨err | r, s3⟩
        · rw [Login_of_refresh_error uc hget hpw hacc href] at h
          simp at h
        · rcases hsave : uc.tokenRepo.Save (uc.newToken user r s3) (uc.atSave s3)
            with ⟨_ | err, s6⟩
          · have hl := Login_of_save_ok uc hget hpw hacc href hsave
            rw [hl] at h
            simp at h
            subst h
            exact ⟨user, s1, s2, s3, s6, rfl, hpw, hacc, href, hsave, hl⟩
          · rw [Login_of_save_error uc hget hpw hacc href hsave] at h
            simp at h

end LoginBranches

/-! ## How `Refresh` and `ValidateToken` run, branch by branch -/

section OtherBranches

variable {σ : Type} (uc : authUseCase σ)

theorem Refresh_of_rejected {token : String} {s s1 : σ} {err : Error}
    (hval : uc.tokenService.ValidateToken token s = (.error err, s1)) :
    uc.Refresh token s = ⟨.error .ErrInvalidRefreshToken, s1, [.ValidateToken token]⟩ := by
  simp only [authUseCase.Refresh, hval]

theorem Refresh_of_generate_error {token userID role : String} {s s1 s2 : σ} {err : Error}
    (hval : uc.tokenService.ValidateToken token s = (.ok (userID, role), s1))
    (hacc : uc.tokenService.GenerateAccessToken userID role s1 = (.error err, s2)) :
    uc.Refresh token s =
      ⟨.error .ErrGenerateAccessToken, s2,
        [.ValidateToken token, .GenerateAccessToken userID role]⟩ := by
  simp only [authUseCase.Refresh, hval, hacc]

theorem Refresh_of_generate_ok {token userID role a : String} {s s1 s2 : σ}
    (hval : uc.tokenService.ValidateToken token s = (.ok (userID, role), s1))
    (hacc : uc.tokenService.GenerateAccessToken userID role s1 = (.ok a, s2)) :
    uc.Refresh token s =
      ⟨.ok { AccessToken := a }, s2,
        [.ValidateToken token, .GenerateAccessToken userID role]⟩ := by
  simp only [authUseCase.Refresh, hval, hacc]

theorem ValidateToken_of_rejected {token : String} {s s1 : σ} {err : Error}
    (hval : uc.tokenService.ValidateToken token s = (.error err, s1)) :
    uc.ValidateToken token s = ⟨("", "", some .ErrValidateToken), s1, [.ValidateToken token]⟩ := by
  simp only [authUseCase.ValidateToken, hval]

theorem ValidateToken_of_verified {token userID role : String} {s s1 : σ}
    (hval : uc.tokenService.ValidateToken token s = (.ok (userID, role), s1)) :
    uc.ValidateToken token s = ⟨(userID, role, none), s1, [.ValidateToken token]⟩ := by
  simp only [authUseCase.ValidateToken, hval]

theorem ValidateToken_result_of_verified {token userID role : String} {s : σ}
    (hval : (uc.tokenService.ValidateToken token s).1 = .ok (userID, role)) :
    (uc.ValidateToken token s).result = (userID, role, none) := by
  rcases h : uc.tokenService.ValidateToken token s with ⟨r, s1⟩
  rw [h] at hval
  simp only at hval
  subst hval
  rw [ValidateToken_of_verified uc h]

end OtherBranches

/-! ## The demo token service reads back what it wrote -/

namespace Demo

theorem takeWhile_dots (n : Nat) (rest : List Char) :
    (List.replicate n '.' ++ '|' :: rest).takeWhile (fun c => c == '.') =
      List.replicate n '.' := by
  induction n with
  | zero => simp [List.takeWhile]
  | succ n ih => simp [List.replicate_succ, List.takeWhile, ih]

theorem dropWhile_dots (n : Nat) (rest : List Char) :
    (List.replicate n '.' ++ '|' :: rest).dropWhile (fun c => c == '.') = '|' :: rest := by
  induction n with
  | zero => simp [List.dropWhile]
  | succ n ih => simp [List.replicate_succ, List.dropWhile, ih]

theorem dropWhile_pluses (n m : Nat) (rest : List Char) :
    (List.replicate n '+' ++ (List.replicate m '.' ++ '|' :: rest)).dropWhile
      (fun c => c == '+') = List.replicate m '.' ++ '|' :: rest := by
  induction n with
  | zero => cases m <;> simp [List.replicate_succ, List.dropWhile]
  | succ n ih => simp [List.replicate_succ, List.dropWhile, ih]

theorem ValidateToken_encode (tag : Char) (htag : tag = 'A' ∨ tag = 'R') (serial : Nat)
    (userID role : String) (w : World) :
    ValidateToken (encode tag serial userID role) w = (.ok (userID, role), w) := by
  have hk : ∃ k, kind (encode tag serial userID role) = some k := by
    rcases htag with h | h <;> subst h
    · exact ⟨.access, rfl⟩
    · exact ⟨.refresh, rfl⟩
  obtain ⟨k, hk⟩ := hk
  simp only [ValidateToken, hk]
  simp only [encode, dropWhile_pluses, takeWhile_dots, dropWhile_dots, List.length_replicate]
  have hlen : userID.length = userID.data.length := rfl
  rw [hlen, List.take_left, List.drop_left]

end Demo

/-! ## Failure paths of `Login` -/

/-- C1: when the directory resolves the email to a user and `validatePassword`
is false for the supplied password, `Login` returns no token pair but
`ErrIncorrectPassword`; the refresh-token table is what it was, and the only
calls made are the directory lookup and the hash comparison, so neither token
generator nor `Save` ran. -/
theorem Login_incorrect_password {ε : Type} (x : Ext ε) (email password : String) (s : Sys ε)
    (user : User) (e1 : ε)
    (hget : x.userService.GetUserByEmail email s.ext = (.ok user, e1))
    (hpw : validatePassword x.useCase.lib password user.PasswordHash = false) :
    (x.useCase.Login email password s).result = .error .ErrIncorrectPassword ∧
    (x.useCase.Login email password s).state.store = s.store ∧
    (x.useCase.Login email password s).state.ext = e1 ∧
    (x.useCase.Login email password s).calls =
      [.GetUserByEmail email, .CompareHashAndPassword user.PasswordHash password] ∧
    (∀ record, Call.Save record ∉ (x.useCase.Login email password s).calls) ∧
    (∀ userID role, Call.GenerateAccessToken userID role ∉
      (x.useCase.Login email password s).calls) ∧
    (∀ userID role, Call.GenerateRefreshToken userID role ∉
      (x.useCase.Login email password s).calls) := by
  have hget' : x.useCase.userService.GetUserByEmail email s =
      (.ok user, { store := s.store, ext := e1 }) := by
    simp [Ext.useCase, Sys.call, hget]
  rw [Login_of_wrong_password x.useCase hget' hpw]
  simp

/-- C10: when the directory's `GetUserByEmail` returns an error `e`, `Login`
returns no token pair and that very error; the lookup is the only call made,
so no password check, token generation or store write takes place, and the
world is left as the lookup left it. -/
theorem Login_propagates_directory_error {σ : Type} (uc : authUseCase σ)
    (email password : String) (s s1 : σ) (e : Error)
    (hget : uc.userService.GetUserByEmail email s = (.error e, s1)) :
    (uc.Login email password s).result = .error e ∧
    (uc.Login email password s).state = s1 ∧
    (uc.Login email password s).calls = [.GetUserByEmail email] := by
  rw [Login_of_directory_error uc hget]
  exact ⟨rfl, rfl, rfl⟩

/-- Witness for C1: alice logs in with a wrong password in the demo system. -/
theorem Login_incorrect_password_witness :
    Demo.ext.userService.GetUserByEmail "alice@x.com" (Demo.start 5).ext =
        (.ok Demo.alice, Demo.world 5) ∧
      validatePassword Demo.ext.useCase.lib "secret" Demo.alice.PasswordHash = false ∧
      (Demo.ext.useCase.Login "alice@x.com" "secret" (Demo.start 5)).result =
        .error .ErrIncorrectPassword ∧
      (Demo.ext.useCase.Login "alice@x.com" "secret" (Demo.start 5)).state.store = [] :=
  have h := Login_incorrect_password Demo.ext "alice@x.com" "secret" (Demo.start 5)
    Demo.alice (Demo.world 5) rfl rfl
  ⟨rfl, rfl, h.1, h.2.1⟩

/-- Witness for C10: nobody is registered under bob's email in the demo
system. -/
theorem Login_propagates_directory_error_witness :
    Demo.ext.useCase.userService.GetUserByEmail "bob@x.com" (Demo.start 5) =
        (.error (.other "user not found"), Demo.start 5) ∧
      (Demo.ext.useCase.Login "bob@x.com" "secret" (Demo.start 5)).result =
        .error (.other "user not found") ∧
      (Demo.ext.useCase.Login "bob@x.com" "secret" (Demo.start 5)).calls =
        [.GetUserByEmail "bob@x.com"] :=
  have h := Login_propagates_directory_error Demo.ext.useCase "bob@x.com" "secret"
    (Demo.start 5) (Demo.start 5) (.other "user not found") rfl
  ⟨rfl, h.1, h.2.2⟩

/-! ## Tokens the token service rejects -/

/-- C9: for a token that the token service's `ValidateToken` rejects, `Refresh`
fails with `ErrInvalidRefreshToken` and made no call besides the validation, so
no access token was generated; `ValidateToken` fails with `ErrValidateToken`
and returns the empty subject ID and role. -/
theorem rejected_token_fails {σ : Type} (uc : authUseCase σ) (token : String) (s s1 : σ)
    (e : Error) (hrej : uc.tokenService.ValidateToken token s = (.error e, s1)) :
    (uc.Refresh token s).result = .error .ErrInvalidRefreshToken ∧
    (uc.Refresh token s).calls = [.ValidateToken token] ∧
    (∀ userID role, Call.GenerateAccessToken userID role ∉ (uc.Refresh token s).calls) ∧
    (uc.ValidateToken token s).result = ("", "", some .ErrValidateToken) := by
  rw [Refresh_of_rejected uc hrej, ValidateToken_of_rejected uc hrej]
  simp

/-- Witness for C9: a string that is no demo token. -/
theorem rejected_token_fails_witness :
    Demo.ext.useCase.tokenService.ValidateToken "garbage" (Demo.start 5) =
        (.error (.other "malformed token"), Demo.start 5) ∧
      (Demo.ext.useCase.Refresh "garbage" (Demo.start 5)).result =
        .error .ErrInvalidRefreshToken ∧
      (Demo.ext.useCase.ValidateToken "garbage" (Demo.start 5)).result =
        ("", "", some .ErrValidateToken) :=
  have h := rejected_token_fails Demo.ext.useCase "garbage" (Demo.start 5) (Demo.start 5)
    (.other "malformed token") rfl
  ⟨rfl, h.1, h.2.2.2⟩

/-! ## `Refresh` and the kind of a token -/

/-- C4, as the code has it: `Refresh` never looks at the kind of a token.  It
fails with `ErrInvalidRefreshToken` exactly when the token service's
`ValidateToken` rejects the token; for every token the service verifies,
whatever its kind, `Refresh` calls `GenerateAccessToken` for the reported
subject and role and returns the new access token, or
`ErrGenerateAccessToken` when generation fails. -/
theorem Refresh_checks_no_kind {σ : Type} (uc : authUseCase σ) (token : String) (s : σ) :
    ((uc.Refresh token s).result = .error .ErrInvalidRefreshToken ↔
      ∃ e, (uc.tokenService.ValidateToken token s).1 = .error e) ∧
    ∀ userID role s1, uc.tokenService.ValidateToken token s = (.ok (userID, role), s1) →
      (uc.Refresh token s).calls = [.ValidateToken token, .GenerateAccessToken userID role] ∧
      (uc.Refresh token s).result =
        match (uc.tokenService.GenerateAccessToken userID role s1).1 with
        | .ok newAccessToken => .ok { AccessToken := newAccessToken }
        | .error _ => .error .ErrGenerateAccessToken := by
  constructor
  · rcases hval : uc.tokenService.ValidateToken token s with ⟨err | ⟨userID, role⟩, s1⟩
    · rw [Refresh_of_rejected uc hval]
      simp
    · rcases hacc : uc.tokenService.GenerateAccessToken userID role s1 with ⟨err | a, s2⟩
      · rw [Refresh_of_generate_error uc hval hacc]
        simp
      · rw [Refresh_of_generate_ok uc hval hacc]
        simp
  · intro userID role s1 hval
    rcases hacc : uc.tokenService.GenerateAccessToken userID role s1 with ⟨err | a, s2⟩
    · rw [Refresh_of_generate_error uc hval hacc]
      exact ⟨rfl, rfl⟩
    · rw [Refresh_of_generate_ok uc hval hacc]
      exact ⟨rfl, rfl⟩

/-- Witness for C4 as amended: the demo service verifies alice's access
token, and `Refresh` answers it with a new access token. -/
theorem Refresh_checks_no_kind_witness :
    Demo.ext.useCase.tokenService.ValidateToken "A...|u-1user" (Demo.start 5) =
        (.ok ("u-1", "user"), Demo.start 5) ∧
      (Demo.ext.useCase.Refresh "A...|u-1user" (Demo.start 5)).result =
        .ok { AccessToken := "A...|u-1user" } :=
  ⟨rfl, ((Refresh_checks_no_kind Demo.ext.useCase "A...|u-1user" (Demo.start 5)).2
    "u-1" "user" (Demo.start 5) rfl).2⟩

/-- C4 fails as stated: in the demo system the access token returned by
`Login` has kind access, the token service verifies it, and `Refresh` does not
fail with `ErrInvalidRefreshToken` but generates and returns an access
token. -/
theorem Refresh_accepts_access_token :
    (Demo.ext.useCase.Login "alice@x.com" "Secret123!" (Demo.start 5)).result =
        .ok { AccessToken := "A...|u-1user", RefreshToken := "R...|u-1user" } ∧
      Demo.kind "A...|u-1user" = some .access ∧
      (Demo.ext.tokenService.ValidateToken "A...|u-1user"
        (Demo.ext.useCase.Login "alice@x.com" "Secret123!" (Demo.start 5)).state.ext).1 =
        .ok ("u-1", "user") ∧
      (Demo.ext.useCase.Refresh "A...|u-1user"
        (Demo.ext.useCase.Login "alice@x.com" "Secret123!" (Demo.start 5)).state).result =
        .ok { AccessToken := "A...|u-1user" } ∧
      (Demo.ext.useCase.Refresh "A...|u-1user"
        (Demo.ext.useCase.Login "alice@x.com" "Secret123!" (Demo.start 5)).state).result ≠
        .error .ErrInvalidRefreshToken ∧
      (Demo.ext.useCase.Refresh "A...|u-1user"
        (Demo.ext.useCase.Login "alice@x.com" "Secret123!" (Demo.start 5)).state).calls =
        [.ValidateToken "A...|u-1user", .GenerateAccessToken "u-1" "user"] := by
  refine ⟨rfl, rfl, rfl, rfl, ?_, rfl⟩
  intro h
  have h' : (Demo.ext.useCase.Refresh "A...|u-1user"
      (Demo.ext.useCase.Login "alice@x.com" "Secret123!" (Demo.start 5)).state).result =
      .ok { AccessToken := "A...|u-1user" } := rfl
  rw [h'] at h
  exact absurd h (by simp)

/-! ## Tokens issued by `Login` -/

/-- C5: assume the token service's `ValidateToken` returns `(id, role)` for
every token that `GenerateAccessToken id role` produced.  Then whenever `Login`
succeeds, the directory returned a user for the email, and `ValidateToken` on
the returned access token succeeds, in whatever world it is called, with
exactly that user's `ID.String()` and `Role`. -/
theorem Login_access_token_validates {σ : Type} (uc : authUseCase σ)
    (hvalid : ∀ userID role s t s1,
      uc.tokenService.GenerateAccessToken userID role s = (.ok t, s1) →
      ∀ s', (uc.tokenService.ValidateToken t s').1 = .ok (userID, role))
    (email password : String) (s : σ) (toks : Tokens)
    (hlogin : (uc.Login email password s).result = .ok toks) :
    ∃ user s1, uc.userService.GetUserByEmail email s = (.ok user, s1) ∧
      ∀ s', (uc.ValidateToken toks.AccessToken s').result =
        (user.ID.String, user.Role, none) := by
  obtain ⟨user, s1, s2, s3, s6, hget, -, hacc, -, -, -⟩ := Login_ok_inv uc hlogin
  exact ⟨user, s1, hget, fun s' =>
    ValidateToken_result_of_verified uc (hvalid _ _ _ _ _ hacc s')⟩

/-- Witness for C5: alice logs in to the demo system and her access token
validates to her subject and role. -/
theorem Login_access_token_validates_witness :
    (Demo.ext.useCase.Login "alice@x.com" "Secret123!" (Demo.start 5)).result =
        .ok { AccessToken := "A...|u-1user", RefreshToken := "R...|u-1user" } ∧
      ∃ user s1,
        Demo.ext.useCase.userService.GetUserByEmail "alice@x.com" (Demo.start 5) =
          (.ok user, s1) ∧
        ∀ s', (Demo.ext.useCase.ValidateToken "A...|u-1user" s').result =
          (user.ID.String, user.Role, none) :=
  ⟨rfl, Login_access_token_validates Demo.ext.useCase
    (fun userID role s t s1 h s' => by
      have ht : t = Demo.encode 'A' 0 userID role := by
        have := congrArg Prod.fst h
        simpa [Ext.useCase, Sys.call, Demo.ext, Demo.GenerateAccessToken] using this.symm
      subst ht
      show (Demo.ValidateToken (Demo.encode 'A' 0 userID role) s'.ext).1 = _
      rw [Demo.ValidateToken_encode 'A' (Or.inl rfl)])
    "alice@x.com" "Secret123!" (Demo.start 5)
    { AccessToken := "A...|u-1user", RefreshToken := "R...|u-1user" } rfl⟩

/-- C6: assume that `ValidateToken` returns `(id, role)` for every unexpired
token that `GenerateAccessToken id role` or `GenerateRefreshToken id role`
produced, and that access-token generation does not fail.  Then after a
successful `Login`, whose refresh token `GenerateRefreshToken` produced for
the user that logged in, `Refresh` on that refresh token succeeds in every
world in which the token is unexpired: it validates the token to that user's
`ID.String()` and `Role`, calls `GenerateAccessToken` for them, and returns
the access token that call produced, in the world that call left, having made
these two calls and no other.  `ValidateToken` on the access token it returns
yields, while that one is unexpired, the `ID.String()` and `Role` of the user
that logged in. -/
theorem Login_refresh_token_refreshes {σ : Type} (uc : authUseCase σ)
    (unexpired : String → σ → Prop)
    (hvalid : ∀ userID role s t s1,
      (uc.tokenService.GenerateAccessToken userID role s = (.ok t, s1) ∨
        uc.tokenService.GenerateRefreshToken userID role s = (.ok t, s1)) →
      ∀ s', unexpired t s' → (uc.tokenService.ValidateToken t s').1 = .ok (userID, role))
    (hgen : ∀ userID role s, ∃ t s1,
      uc.tokenService.GenerateAccessToken userID role s = (.ok t, s1))
    (email password : String) (s : σ) (toks : Tokens)
    (hlogin : (uc.Login email password s).result = .ok toks) :
    ∃ user s1, uc.userService.GetUserByEmail email s = (.ok user, s1) ∧
      (∃ s2 s3, uc.tokenService.GenerateRefreshToken user.ID.String user.Role s2 =
        (.ok toks.RefreshToken, s3)) ∧
      ∀ s', unexpired toks.RefreshToken s' →
        ∃ newAccessToken t1 t2,
          uc.tokenService.ValidateToken toks.RefreshToken s' =
            (.ok (user.ID.String, user.Role), t1) ∧
          uc.tokenService.GenerateAccessToken user.ID.String user.Role t1 =
            (.ok newAccessToken, t2) ∧
          uc.Refresh toks.RefreshToken s' =
            ⟨.ok { AccessToken := newAccessToken }, t2,
              [.ValidateToken toks.RefreshToken,
               .GenerateAccessToken user.ID.String user.Role]⟩ ∧
          (uc.Refresh toks.RefreshToken s').result = .ok { AccessToken := newAccessToken } ∧
          ∀ s'', unexpired newAccessToken s'' →
            (uc.ValidateToken newAccessToken s'').result = (user.ID.String, user.Role, none) := by
  obtain ⟨user, s1, s2, s3, s6, hget, -, -, href, -, -⟩ := Login_ok_inv uc hlogin
  refine ⟨user, s1, hget, ⟨s2, s3, href⟩, fun s' hlive => ?_⟩
  have hv := hvalid _ _ _ _ _ (Or.inr href) s' hlive
  rcases hval : uc.tokenService.ValidateToken toks.RefreshToken s' with ⟨r, t1⟩
  rw [hval] at hv
  simp only at hv
  subst hv
  obtain ⟨a, t2, hacc⟩ := hgen user.ID.String user.Role t1
  have hrefresh := Refresh_of_generate_ok uc hval hacc
  refine ⟨a, t1, t2, rfl, hacc, hrefresh, ?_, fun s'' hlive' => ?_⟩
  · rw [hrefresh]
  · exact ValidateToken_result_of_verified uc (hvalid _ _ _ _ _ (Or.inl hacc) s'' hlive')

/-- Witness for C6: in the demo system tokens do not expire and the signer
never fails.  After alice's login, `Refresh` on her refresh token
`R...|u-1user` validates it, generates and returns the access token
`A...|u-1user`, and that one validates to her subject and role. -/
theorem Login_refresh_token_refreshes_witness :
    (Demo.ext.useCase.Login "alice@x.com" "Secret123!" (Demo.start 5)).result =
        .ok { AccessToken := "A...|u-1user", RefreshToken := "R...|u-1user" } ∧
      (Demo.ext.useCase.Refresh "R...|u-1user"
        (Demo.ext.useCase.Login "alice@x.com" "Secret123!" (Demo.start 5)).state).result =
        .ok { AccessToken := "A...|u-1user" } ∧
      (Demo.ext.useCase.Refresh "R...|u-1user"
        (Demo.ext.useCase.Login "alice@x.com" "Secret123!" (Demo.start 5)).state).calls =
        [.ValidateToken "R...|u-1user", .GenerateAccessToken "u-1" "user"] ∧
      (Demo.ext.useCase.ValidateToken "A...|u-1user"
        (Demo.ext.useCase.Refresh "R...|u-1user"
          (Demo.ext.useCase.Login "alice@x.com" "Secret123!"
            (Demo.start 5)).state).state).result = ("u-1", "user", none) ∧
      ∃ user s1,
        Demo.ext.useCase.userService.GetUserByEmail "alice@x.com" (Demo.start 5) =
          (.ok user, s1) ∧
        (∃ s2 s3, Demo.ext.useCase.tokenService.GenerateRefreshToken user.ID.String
          user.Role s2 = (.ok "R...|u-1user", s3)) ∧
        ∀ s', True →
          ∃ newAccessToken t1 t2,
            Demo.ext.useCase.tokenService.ValidateToken "R...|u-1user" s' =
              (.ok (user.ID.String, user.Role), t1) ∧
            Demo.ext.useCase.tokenService.GenerateAccessToken user.ID.String user.Role t1 =
              (.ok newAccessToken, t2) ∧
            Demo.ext.useCase.Refresh "R...|u-1user" s' =
              ⟨.ok { AccessToken := newAccessToken }, t2,
                [.ValidateToken "R...|u-1user",
                 .GenerateAccessToken user.ID.String user.Role]⟩ ∧
            (Demo.ext.useCase.Refresh "R...|u-1user" s').result =
              .ok { AccessToken := newAccessToken } ∧
            ∀ s'', True →
              (Demo.ext.useCase.ValidateToken newAccessToken s'').result =
                (user.ID.String, user.Role, none) :=
  ⟨rfl, rfl, rfl, rfl, Login_refresh_token_refreshes Demo.ext.useCase (fun _ _ => True)
    (fun userID role s t s1 h s' _ => by
      have ht : t = Demo.encode 'A' 0 userID role ∨
          t = Demo.encode 'R' s.ext.serial userID role := by
        rcases h with h | h
        · left
          have := congrArg Prod.fst h
          simpa [Ext.useCase, Sys.call, Demo.ext, Demo.GenerateAccessToken] using this.symm
        · right
          have := congrArg Prod.fst h
          simpa [Ext.useCase, Sys.call, Demo.ext, Demo.GenerateRefreshToken] using this.symm
      rcases ht with ht | ht <;> subst ht
      · show (Demo.ValidateToken (Demo.encode 'A' 0 userID role) s'.ext).1 = _
        rw [Demo.ValidateToken_encode 'A' (Or.inl rfl)]
      · show (Demo.ValidateToken (Demo.encode 'R' s.ext.serial userID role) s'.ext).1 = _
        rw [Demo.ValidateToken_encode 'R' (Or.inr rfl)])
    (fun userID role s => ⟨Demo.encode 'A' 0 userID role, s, rfl⟩)
    "alice@x.com" "Secret123!" (Demo.start 5)
    { AccessToken := "A...|u-1user", RefreshToken := "R...|u-1user" } rfl⟩

/-! ## The assembled system: what touches the table -/

section SystemCalls

variable {ε : Type} (x : Ext ε)

theorem useCase_ValidateToken (token : String) (s : Sys ε) :
    x.useCase.tokenService.ValidateToken token s =
      ((x.tokenService.ValidateToken token s.ext).1,
        { store := s.store, ext := (x.tokenService.ValidateToken token s.ext).2 }) := rfl

theorem useCase_GenerateAccessToken (userID role : String) (s : Sys ε) :
    x.useCase.tokenService.GenerateAccessToken userID role s =
      ((x.tokenService.GenerateAccessToken userID role s.ext).1,
        { store := s.store, ext := (x.tokenService.GenerateAccessToken userID role s.ext).2 }) :=
  rfl

/-- `Refresh` in the assembled system, spelled out on the outside state
alone: the table is carried along untouched. -/
theorem useCase_Refresh (token : String) (s : Sys ε) :
    x.useCase.Refresh token s =
      match x.tokenService.ValidateToken token s.ext with
      | (.error _, e1) =>
        ⟨.error .ErrInvalidRefreshToken, { store := s.store, ext := e1 },
          [.ValidateToken token]⟩
      | (.ok (userID, role), e1) =>
        match x.tokenService.GenerateAccessToken userID role e1 with
        | (.error _, e2) =>
          ⟨.error .ErrGenerateAccessToken, { store := s.store, ext := e2 },
            [.ValidateToken token, .GenerateAccessToken userID role]⟩
        | (.ok a, e2) =>
          ⟨.ok { AccessToken := a }, { store := s.store, ext := e2 },
            [.ValidateToken token, .GenerateAccessToken userID role]⟩ := by
  rcases hv : x.tokenService.ValidateToken token s.ext with ⟨err | ⟨userID, role⟩, e1⟩
  · exact Refresh_of_rejected x.useCase (by rw [useCase_ValidateToken, hv])
  · rcases hg : x.tokenService.GenerateAccessToken userID role e1 with ⟨err | a, e2⟩
    · have hacc : x.useCase.tokenService.GenerateAccessToken userID role
          { store := s.store, ext := e1 } = (.error err, { store := s.store, ext := e2 }) := by
        rw [useCase_GenerateAccessToken]
        simp only [hg]
      simp only
      rw [hg]
      exact Refresh_of_generate_error x.useCase (by rw [useCase_ValidateToken, hv]) hacc
    · have hacc : x.useCase.tokenService.GenerateAccessToken userID role
          { store := s.store, ext := e1 } = (.ok a, { store := s.store, ext := e2 }) := by
        rw [useCase_GenerateAccessToken]
        simp only [hg]
      simp only
      rw [hg]
      exact Refresh_of_generate_ok x.useCase (by rw [useCase_ValidateToken, hv]) hacc

end SystemCalls

/-! ## `Refresh` and the refresh-token table -/

/-- C3: `Refresh` neither reads nor writes the refresh-token table.  Run on
two tables in the same outside world it returns the same result, leaves the
same outside world and makes the same calls, all of them to the token service;
the table it was given is the table it leaves.  In particular a successful
`Logout` of a token changes nothing for `Refresh` on that token: in whatever
outside world, `Refresh` on the table after the `Logout` returns what it
returns on the table before it.  If the token service still verifies the
token, `Refresh` does not reject it (no `ErrInvalidRefreshToken`): it calls
`GenerateAccessToken` for the verified subject and role and returns the access
token produced, the only failure left being that of this generation itself
(`ErrGenerateAccessToken`).  The response carries an access token only, and
`GenerateRefreshToken` is not called. -/
theorem Refresh_ignores_store {ε : Type} (x : Ext ε) (token : String)
    (store1 store2 : List Token) (e : ε) :
    (x.useCase.Refresh token { store := store1, ext := e }).result =
      (x.useCase.Refresh token { store := store2, ext := e }).result ∧
    (x.useCase.Refresh token { store := store1, ext := e }).state.ext =
      (x.useCase.Refresh token { store := store2, ext := e }).state.ext ∧
    (x.useCase.Refresh token { store := store1, ext := e }).calls =
      (x.useCase.Refresh token { store := store2, ext := e }).calls ∧
    (x.useCase.Refresh token { store := store1, ext := e }).state.store = store1 ∧
    (∀ c ∈ (x.useCase.Refresh token { store := store1, ext := e }).calls,
      c = .ValidateToken token ∨ ∃ userID role, c = .GenerateAccessToken userID role) ∧
    (∀ s userID role e1 a e2,
      (x.useCase.Logout token s).result = none →
      x.tokenService.ValidateToken token (x.useCase.Logout token s).state.ext =
        (.ok (userID, role), e1) →
      x.tokenService.GenerateAccessToken userID role e1 = (.ok a, e2) →
      (x.useCase.Refresh token (x.useCase.Logout token s).state).result =
        .ok { AccessToken := a }) ∧
    (∀ s, (x.useCase.Logout token s).result = none →
      (∀ e',
        (x.useCase.Refresh token
          { store := (x.useCase.Logout token s).state.store, ext := e' }).result =
        (x.useCase.Refresh token { store := s.store, ext := e' }).result) ∧
      ∀ userID role e1,
        x.tokenService.ValidateToken token (x.useCase.Logout token s).state.ext =
          (.ok (userID, role), e1) →
        (x.useCase.Refresh token (x.useCase.Logout token s).state).result ≠
          .error .ErrInvalidRefreshToken ∧
        (x.useCase.Refresh token (x.useCase.Logout token s).state).calls =
          [.ValidateToken token, .GenerateAccessToken userID role] ∧
        (x.useCase.Refresh token (x.useCase.Logout token s).state).result =
          match (x.tokenService.GenerateAccessToken userID role e1).1 with
          | .ok newAccessToken => .ok { AccessToken := newAccessToken }
          | .error _ => .error .ErrGenerateAccessToken) := by
  have hsame : ∀ (st1 st2 : List Token) (e' : ε),
      (x.useCase.Refresh token { store := st1, ext := e' }).result =
        (x.useCase.Refresh token { store := st2, ext := e' }).result := by
    intro st1 st2 e'
    rw [useCase_Refresh, useCase_Refresh]
    rcases hv : x.tokenService.ValidateToken token e' with ⟨err | ⟨userID, role⟩, e1⟩
    · simp only [hv]
    · rcases hg : x.tokenService.GenerateAccessToken userID role e1 with ⟨err | a, e2⟩ <;>
        simp only [hv, hg]
  refine ⟨hsame store1 store2 e, ?_, ?_, ?_, ?_, ?_, ?_⟩
  · rw [useCase_Refresh, useCase_Refresh]
    rcases hv : x.tokenService.ValidateToken token e with ⟨err | ⟨userID, role⟩, e1⟩
    · simp only [hv]
    · rcases hg : x.tokenService.GenerateAccessToken userID role e1 with ⟨err | a, e2⟩ <;>
        simp only [hv, hg]
  · rw [useCase_Refresh, useCase_Refresh]
    rcases hv : x.tokenService.ValidateToken token e with ⟨err | ⟨userID, role⟩, e1⟩
    · simp only [hv]
    · rcases hg : x.tokenService.GenerateAccessToken userID role e1 with ⟨err | a, e2⟩ <;>
        simp only [hv, hg]
  · rw [useCase_Refresh]
    rcases hv : x.tokenService.ValidateToken token e with ⟨err | ⟨userID, role⟩, e1⟩
    · simp only [hv]
    · rcases hg : x.tokenService.GenerateAccessToken userID role e1 with ⟨err | a, e2⟩ <;>
        simp only [hv, hg]
  · rw [useCase_Refresh]
    rcases hv : x.tokenService.ValidateToken token e with ⟨err | ⟨userID, role⟩, e1⟩
    · simp [hv]
    · rcases hg : x.tokenService.GenerateAccessToken userID role e1 with ⟨err | a, e2⟩ <;>
        simp [hv, hg]
  · intro s userID role e1 a e2 _ hv hg
    rw [useCase_Refresh]
    simp only [hv, hg]
  · intro s _
    refine ⟨fun e' => hsame _ _ e', ?_⟩
    intro userID role e1 hv
    rw [useCase_Refresh]
    rcases hg : x.tokenService.GenerateAccessToken userID role e1 with ⟨err | a, e2⟩ <;>
      simp [hv, hg]

/-- Witness for C3: alice logs in to the demo system and logs out, which
empties the table; her refresh token still verifies, and `Refresh` answers it
with a new access token, as it does on the table that still holds her
record.  With the rationed signer, whose quota her login used up, `Refresh`
fails with `ErrGenerateAccessToken` after the `Logout` exactly as it does
before it. -/
theorem Refresh_ignores_store_witness :
    (Demo.ext.useCase.Logout "R...|u-1user"
        (Demo.ext.useCase.Login "alice@x.com" "Secret123!" (Demo.start 5)).state).result =
        none ∧
      (Demo.ext.useCase.Logout "R...|u-1user"
        (Demo.ext.useCase.Login "alice@x.com" "Secret123!" (Demo.start 5)).state).state.store =
        [] ∧
      (Demo.ext.useCase.Refresh "R...|u-1user"
        (Demo.ext.useCase.Logout "R...|u-1user"
          (Demo.ext.useCase.Login "alice@x.com" "Secret123!" (Demo.start 5)).state).state).result =
        .ok { AccessToken := "A...|u-1user" } ∧
      (Demo.ext.useCase.Refresh "R...|u-1user"
        (Demo.ext.useCase.Logout "R...|u-1user"
          (Demo.ext.useCase.Login "alice@x.com" "Secret123!" (Demo.start 5)).state).state).calls =
        [.ValidateToken "R...|u-1user", .GenerateAccessToken "u-1" "user"] ∧
      (Demo.ext.useCase.Refresh "R...|u-1user"
        { store := [], ext := Demo.world 5 }).result =
        (Demo.ext.useCase.Refresh "R...|u-1user"
          { store := (Demo.ext.useCase.Login "alice@x.com" "Secret123!"
              (Demo.start 5)).state.store,
            ext := Demo.world 5 }).result ∧
      (Demo.rationed.useCase.Refresh "R...|u-1user"
        (Demo.rationed.useCase.Login "alice@x.com" "Secret123!" (Demo.start 1)).state).result =
        .error .ErrGenerateAccessToken ∧
      (Demo.rationed.useCase.Refresh "R...|u-1user"
        (Demo.rationed.useCase.Logout "R...|u-1user"
          (Demo.rationed.useCase.Login "alice@x.com" "Secret123!"
            (Demo.start 1)).state).state).result = .error .ErrGenerateAccessToken := by
  have h := Refresh_ignores_store Demo.ext "R...|u-1user" []
    (Demo.ext.useCase.Login "alice@x.com" "Secret123!" (Demo.start 5)).state.store
    (Demo.world 5)
  have hafter := (h.2.2.2.2.2.2
    (Demo.ext.useCase.Login "alice@x.com" "Secret123!" (Demo.start 5)).state rfl).2
    "u-1" "user" _ rfl
  exact ⟨rfl, rfl,
    h.2.2.2.2.2.1 (Demo.ext.useCase.Login "alice@x.com" "Secret123!" (Demo.start 5)).state
      "u-1" "user" _ "A...|u-1user" _ rfl rfl rfl,
    hafter.2.1, h.1, rfl, rfl⟩

/-! ## The modelled table -/

section Table

theorem Save_ok_iff (record : Token) (store store' : List Token) :
    RefreshTokenStore.Save record store = .ok store' ↔
      store' = store ++ [record] ∧
        ∀ r ∈ store, r.Token ≠ record.Token ∧ r.ID ≠ record.ID := by
  unfold RefreshTokenStore.Save
  by_cases h : store.any (fun r => r.Token == record.Token || r.ID == record.ID) = true
  · rw [if_pos h]
    constructor
    · intro h'
      cases h'
    · rintro ⟨-, hfree⟩
      rw [List.any_eq_true] at h
      obtain ⟨r, hr, hk⟩ := h
      have := hfree r hr
      simp at hk
      tauto
  · rw [if_neg h]
    constructor
    · intro h'
      injection h' with h'
      refine ⟨h'.symm, fun r hr => ?_⟩
      rw [List.any_eq_true] at h
      have hk : ¬ ((r.Token == record.Token || r.ID == record.ID) = true) :=
        fun hk => h ⟨r, hr, hk⟩
      simp at hk
      exact ⟨hk.1, hk.2⟩
    · rintro ⟨rfl, -⟩
      rfl

theorem Keyed_nil : Keyed [] := by
  simp [Keyed]

theorem Keyed_Save {record : Token} {store store' : List Token} (hk : Keyed store)
    (h : RefreshTokenStore.Save record store = .ok store') : Keyed store' := by
  obtain ⟨rfl, hfree⟩ := (Save_ok_iff record store store').1 h
  unfold Keyed at hk ⊢
  simp only [List.map_append, List.map_cons, List.map_nil]
  constructor
  · refine List.Nodup.append hk.1 (List.nodup_singleton _) ?_
    intro t ht ht'
    simp only [List.mem_singleton] at ht'
    obtain ⟨r, hr, hrt⟩ := List.mem_map.1 ht
    exact (hfree r hr).1 (hrt.trans ht')
  · refine List.Nodup.append hk.2 (List.nodup_singleton _) ?_
    intro t ht ht'
    simp only [List.mem_singleton] at ht'
    obtain ⟨r, hr, hrt⟩ := List.mem_map.1 ht
    exact (hfree r hr).2 (hrt.trans ht')

theorem Keyed_Delete {store : List Token} (id : String) (hk : Keyed store) :
    Keyed (RefreshTokenStore.Delete id store) := by
  unfold Keyed at hk ⊢
  unfold RefreshTokenStore.Delete
  exact ⟨hk.1.sublist (List.Sublist.map _ (List.filter_sublist _)),
    hk.2.sublist (List.Sublist.map _ (List.filter_sublist _))⟩

theorem FindByToken_ok_iff (token : String) (store : List Token) (r : Token) :
    RefreshTokenStore.FindByToken token store = .ok r ↔
      store.find? (fun r => r.Token == token) = some r := by
  unfold RefreshTokenStore.FindByToken
  cases store.find? (fun r => r.Token == token) <;> simp

theorem FindByToken_ok {token : String} {store : List Token} {r : Token}
    (h : RefreshTokenStore.FindByToken token store = .ok r) : r ∈ store ∧ r.Token = token := by
  rw [FindByToken_ok_iff] at h
  exact ⟨List.mem_of_find?_eq_some h, by simpa using List.find?_some h⟩

theorem FindByToken_absent {token : String} {store : List Token}
    (h : ∀ r ∈ store, r.Token ≠ token) :
    RefreshTokenStore.FindByToken token store = .error RefreshTokenStore.NotFoundError := by
  unfold RefreshTokenStore.FindByToken
  have : store.find? (fun r => r.Token == token) = none := by
    rw [List.find?_eq_none]
    intro r hr
    simpa using h r hr
  rw [this]

theorem mem_Delete {id : String} {store : List Token} {r : Token} :
    r ∈ RefreshTokenStore.Delete id store ↔ r ∈ store ∧ r.ID.String ≠ id := by
  simp [RefreshTokenStore.Delete]

theorem UUID_String_injective {u v : UUID} (h : u.String = v.String) : u = v := by
  cases u
  cases v
  simpa [UUID.String] using h

/-- In a keyed table, deleting by the ID of a stored record erases that record
and nothing else. -/
theorem Delete_eq_erase {store : List Token} (hk : Keyed store) {r : Token} (hr : r ∈ store) :
    RefreshTokenStore.Delete r.ID.String store = store.erase r := by
  rw [(List.Nodup.of_map _ hk.2).erase_eq_filter]
  unfold RefreshTokenStore.Delete
  apply List.filter_congr
  intro r' hr'
  by_cases h : r' = r
  · subst h
    simp
  · have hid : r'.ID ≠ r.ID := fun hid => h (List.inj_on_of_nodup_map hk.2 hr' hr hid)
    have hs : r'.ID.String ≠ r.ID.String := fun hs => hid (UUID_String_injective hs)
    rw [bne_iff_ne.2 hs, bne_iff_ne.2 h]

/-- In a keyed table, once the record of a token is deleted by its ID, no
record carries that token. -/
theorem Delete_removes_token {store : List Token} (hk : Keyed store) {r : Token}
    (hr : r ∈ store) :
    ∀ r' ∈ RefreshTokenStore.Delete r.ID.String store, r'.Token ≠ r.Token := by
  intro r' hr' ht
  rw [mem_Delete] at hr'
  have : r' = r := List.inj_on_of_nodup_map hk.1 hr'.1 hr ht
  exact hr'.2 (by rw [this])

end Table

/-! ## How `Logout` runs, branch by branch -/

section LogoutBranches

variable {σ : Type} (uc : authUseCase σ)

theorem Logout_of_find_error {token : String} {s s1 : σ} {err : Error}
    (hfind : uc.tokenRepo.FindByToken token s = (.error err, s1)) :
    uc.Logout token s = ⟨some .ErrFindRefreshToken, s1, [.FindByToken token]⟩ := by
  simp only [authUseCase.Logout, hfind]

theorem Logout_of_delete_error {token : String} {s s1 s2 : σ} {r : Token} {err : Error}
    (hfind : uc.tokenRepo.FindByToken token s = (.ok r, s1))
    (hdel : uc.tokenRepo.Delete r.ID.String s1 = (some err, s2)) :
    uc.Logout token s =
      ⟨some .ErrDeleteRefreshToken, s2, [.FindByToken token, .Delete r.ID.String]⟩ := by
  simp only [authUseCase.Logout, hfind, hdel]

theorem Logout_of_delete_ok {token : String} {s s1 s2 : σ} {r : Token}
    (hfind : uc.tokenRepo.FindByToken token s = (.ok r, s1))
    (hdel : uc.tokenRepo.Delete r.ID.String s1 = (none, s2)) :
    uc.Logout token s = ⟨none, s2, [.FindByToken token, .Delete r.ID.String]⟩ := by
  simp only [authUseCase.Logout, hfind, hdel]

/-- A successful `Logout` found a record and deleted it by its ID. -/
theorem Logout_ok_inv {token : String} {s : σ} (h : (uc.Logout token s).result = none) :
    ∃ r s1 s2, uc.tokenRepo.FindByToken token s = (.ok r, s1) ∧
      uc.tokenRepo.Delete r.ID.String s1 = (none, s2) ∧
      uc.Logout token s = ⟨none, s2, [.FindByToken token, .Delete r.ID.String]⟩ := by
  rcases hfind : uc.tokenRepo.FindByToken token s with ⟨err | r, s1⟩
  · rw [Logout_of_find_error uc hfind] at h
    simp at h
  · rcases hdel : uc.tokenRepo.Delete r.ID.String s1 with ⟨_ | err, s2⟩
    · exact ⟨r, s1, s2, rfl, hdel, Logout_of_delete_ok uc hfind hdel⟩
    · rw [Logout_of_delete_error uc hfind hdel] at h
      simp at h

end LogoutBranches

/-! ## The repository over the modelled table -/

section Repository

variable {ε : Type} (x : Ext ε)

theorem Sys.call_eq {α : Type} {f : ε → α × ε} {s s1 : Sys ε} {a : α}
    (h : Sys.call f s = (a, s1)) : f s.ext = (a, s1.ext) ∧ s1.store = s.store := by
  unfold Sys.call at h
  injection h with h1 h2
  subst h1 h2
  exact ⟨rfl, rfl⟩

theorem tokenRepo_FindByToken_store (token : String) (s : Sys ε) :
    (x.tokenRepo.FindByToken token s).2.store = s.store := by
  unfold Ext.tokenRepo
  rcases hf : x.storageFailure s.ext with ⟨_ | err, e⟩ <;> simp only [hf]

theorem tokenRepo_FindByToken_ok {token : String} {s : Sys ε} {r : Token}
    (h : (x.tokenRepo.FindByToken token s).1 = .ok r) :
    RefreshTokenStore.FindByToken token s.store = .ok r := by
  unfold Ext.tokenRepo at h
  rcases hf : x.storageFailure s.ext with ⟨_ | err, e⟩
  · simpa only [hf] using h
  · simp [hf] at h

theorem tokenRepo_FindByToken_absent {token : String} {s : Sys ε}
    (h : ∀ r ∈ s.store, r.Token ≠ token) :
    ∃ err, (x.tokenRepo.FindByToken token s).1 = .error err := by
  unfold Ext.tokenRepo
  rcases hf : x.storageFailure s.ext with ⟨_ | err, e⟩
  · exact ⟨_, by simp only [hf]; exact FindByToken_absent h⟩
  · exact ⟨err, by simp only [hf]⟩

theorem tokenRepo_Delete_ok {id : String} {s : Sys ε}
    (h : (x.tokenRepo.Delete id s).1 = none) :
    (x.tokenRepo.Delete id s).2.store = RefreshTokenStore.Delete id s.store := by
  unfold Ext.tokenRepo at h ⊢
  rcases hf : x.storageFailure s.ext with ⟨_ | err, e⟩
  · simp only [hf]
  · simp [hf] at h

theorem tokenRepo_Delete_store (id : String) (s : Sys ε) :
    (x.tokenRepo.Delete id s).2.store = s.store ∨
      (x.tokenRepo.Delete id s).2.store = RefreshTokenStore.Delete id s.store := by
  unfold Ext.tokenRepo
  rcases hf : x.storageFailure s.ext with ⟨_ | err, e⟩
  · right
    simp only [hf]
  · left
    simp only [hf]

theorem tokenRepo_Save_ok {record : Token} {s : Sys ε}
    (h : (x.tokenRepo.Save record s).1 = none) :
    RefreshTokenStore.Save record s.store = .ok (x.tokenRepo.Save record s).2.store := by
  unfold Ext.tokenRepo at h ⊢
  rcases hf : x.storageFailure s.ext with ⟨_ | err, e⟩
  · rcases hs : RefreshTokenStore.Save record s.store with err | store'
    · simp [hf, hs] at h
    · simp only [hf, hs]
  · simp [hf] at h

theorem tokenRepo_Save_store (record : Token) (s : Sys ε) :
    (x.tokenRepo.Save record s).2.store = s.store ∨
      RefreshTokenStore.Save record s.store = .ok (x.tokenRepo.Save record s).2.store := by
  unfold Ext.tokenRepo
  rcases hf : x.storageFailure s.ext with ⟨_ | err, e⟩
  · rcases hs : RefreshTokenStore.Save record s.store with err | store'
    · left
      simp only [hf, hs]
    · right
      simp only [hf, hs]
  · left
    simp only [hf]

end Repository

/-! ## `Login`, `Register` and `Logout` in the assembled system -/

section SystemOperations

variable {ε : Type} (x : Ext ε)

/-- A successful `Login` in the assembled system, told in terms of the outside
collaborators and the modelled table. -/
theorem useCase_Login_ok_inv {email password : String} {s : Sys ε} {toks : Tokens}
    (h : (x.useCase.Login email password s).result = .ok toks) :
    ∃ user e1 e2 e3,
      x.userService.GetUserByEmail email s.ext = (.ok user, e1) ∧
      validatePassword x.useCase.lib password user.PasswordHash = true ∧
      x.tokenService.GenerateAccessToken user.ID.String user.Role e1 =
        (.ok toks.AccessToken, e2) ∧
      x.tokenService.GenerateRefreshToken user.ID.String user.Role e2 =
        (.ok toks.RefreshToken, e3) ∧
      RefreshTokenStore.Save
          { ID := (x.lib.uuidNew e3).1, UserID := user.ID, Token := toks.RefreshToken,
            CreatedAt := (x.lib.timeNow (x.lib.uuidNew e3).2).1 } s.store =
        .ok (x.useCase.Login email password s).state.store ∧
      (x.useCase.Login email password s).calls =
        authUseCase.loginCalls email password user
          { ID := (x.lib.uuidNew e3).1, UserID := user.ID, Token := toks.RefreshToken,
            CreatedAt := (x.lib.timeNow (x.lib.uuidNew e3).2).1 } := by
  obtain ⟨user, s1, s2, s3, s6, hget, hpw, hacc, href, hsave, hl⟩ :=
    Login_ok_inv x.useCase h
  have hget' : Sys.call (x.userService.GetUserByEmail email) s = (.ok user, s1) := hget
  have hacc' : Sys.call (x.tokenService.GenerateAccessToken user.ID.String user.Role) s1 =
      (.ok toks.AccessToken, s2) := hacc
  have href' : Sys.call (x.tokenService.GenerateRefreshToken user.ID.String user.Role) s2 =
      (.ok toks.RefreshToken, s3) := href
  obtain ⟨hg, hst1⟩ := Sys.call_eq hget'
  obtain ⟨ha, hst2⟩ := Sys.call_eq hacc'
  obtain ⟨hr, hst3⟩ := Sys.call_eq href'
  have hsave' : x.tokenRepo.Save
      { ID := (x.lib.uuidNew s3.ext).1, UserID := user.ID, Token := toks.RefreshToken,
        CreatedAt := (x.lib.timeNow (x.lib.uuidNew s3.ext).2).1 }
      { store := s3.store, ext := (x.lib.timeNow (x.lib.uuidNew s3.ext).2).2 } =
      (none, s6) := hsave
  have hok := tokenRepo_Save_ok x (by rw [hsave'])
  rw [hsave'] at hok
  simp only at hok
  rw [hst3, hst2, hst1] at hok
  refine ⟨user, s1.ext, s2.ext, s3.ext, hg, hpw, ha, hr, ?_, ?_⟩
  · rw [hl]
    exact hok
  · rw [hl]
    rfl

/-- Whatever `Login` does, the table afterwards is the table before, or the
table before with one record saved. -/
theorem useCase_Login_store (email password : String) (s : Sys ε) :
    (x.useCase.Login email password s).state.store = s.store ∨
      ∃ record, RefreshTokenStore.Save record s.store =
        .ok (x.useCase.Login email password s).state.store := by
  rcases hget : x.useCase.userService.GetUserByEmail email s with ⟨err | user, s1⟩
  · left
    have hget' : Sys.call (x.userService.GetUserByEmail email) s = (.error err, s1) := hget
    rw [Login_of_directory_error x.useCase hget]
    exact (Sys.call_eq hget').2
  · have hget' : Sys.call (x.userService.GetUserByEmail email) s = (.ok user, s1) := hget
    have hst1 := (Sys.call_eq hget').2
    cases hpw : validatePassword x.useCase.lib password user.PasswordHash
    · left
      rw [Login_of_wrong_password x.useCase hget hpw]
      exact hst1
    · rcases hacc : x.useCase.tokenService.GenerateAccessToken user.ID.String user.Role s1
        with ⟨err | a, s2⟩
      · left
        have hacc' : Sys.call (x.tokenService.GenerateAccessToken user.ID.String user.Role)
            s1 = (.error err, s2) := hacc
        rw [Login_of_access_error x.useCase hget hpw hacc]
        exact (Sys.call_eq hacc').2.trans hst1
      · have hacc' : Sys.call (x.tokenService.GenerateAccessToken user.ID.String user.Role)
            s1 = (.ok a, s2) := hacc
        have hst2 := (Sys.call_eq hacc').2.trans hst1
        rcases href : x.useCase.tokenService.GenerateRefreshToken user.ID.String user.Role s2
          with ⟨err | r, s3⟩
        · left
          have href' : Sys.call
              (x.tokenService.GenerateRefreshToken user.ID.String user.Role) s2 =
              (.error err, s3) := href
          rw [Login_of_refresh_error x.useCase hget hpw hacc href]
          exact (Sys.call_eq href').2.trans hst2
        · have href' : Sys.call
              (x.tokenService.GenerateRefreshToken user.ID.String user.Role) s2 =
              (.ok r, s3) := href
          have hst3 := (Sys.call_eq href').2.trans hst2
          have hat : (x.useCase.atSave s3).store = s.store := hst3
          rcases hsave : x.useCase.tokenRepo.Save (x.useCase.newToken user r s3)
            (x.useCase.atSave s3) with ⟨_ | err, s6⟩
          · rw [Login_of_save_ok x.useCase hget hpw hacc href hsave]
            have hsave' : x.tokenRepo.Save (x.useCase.newToken user r s3)
                (x.useCase.atSave s3) = (none, s6) := hsave
            rcases tokenRepo_Save_store x (x.useCase.newToken user r s3)
              (x.useCase.atSave s3) with h | h
            · left
              rw [hsave'] at h
              exact h.trans hat
            · right
              rw [hsave', hat] at h
              exact ⟨_, h⟩
          · rw [Login_of_save_error x.useCase hget hpw hacc href hsave]
            have hsave' : x.tokenRepo.Save (x.useCase.newToken user r s3)
                (x.useCase.atSave s3) = (some err, s6) := hsave
            rcases tokenRepo_Save_store x (x.useCase.newToken user r s3)
              (x.useCase.atSave s3) with h | h
            · left
              rw [hsave'] at h
              exact h.trans hat
            · right
              rw [hsave', hat] at h
              exact ⟨_, h⟩

theorem useCase_Login_Keyed (email password : String) (s : Sys ε) (hk : Keyed s.store) :
    Keyed (x.useCase.Login email password s).state.store := by
  rcases useCase_Login_store x email password s with h | ⟨record, h⟩
  · rw [h]
    exact hk
  · exact Keyed_Save hk h

theorem useCase_Register_Keyed (username email password : String) (s : Sys ε)
    (hk : Keyed s.store) :
    Keyed (x.useCase.Register username email password s).state.store := by
  rcases hc : x.useCase.userService.CreateUser username email password s with ⟨_ | err, s1⟩
  · have hc' : Sys.call (x.userService.CreateUser username email password) s = (none, s1) := hc
    have hst := (Sys.call_eq hc').2
    simp only [authUseCase.Register, hc]
    exact useCase_Login_Keyed x email password s1 (by rw [hst]; exact hk)
  · have hc' : Sys.call (x.userService.CreateUser username email password) s =
        (some err, s1) := hc
    have hst := (Sys.call_eq hc').2
    simp only [authUseCase.Register, hc]
    rw [hst]
    exact hk

theorem useCase_Refresh_store (token : String) (s : Sys ε) :
    (x.useCase.Refresh token s).state.store = s.store := by
  rw [useCase_Refresh]
  rcases hv : x.tokenService.ValidateToken token s.ext with ⟨err | ⟨userID, role⟩, e1⟩
  · simp only [hv]
  · rcases hg : x.tokenService.GenerateAccessToken userID role e1 with ⟨err | a, e2⟩ <;>
      simp only [hv, hg]

theorem useCase_ValidateToken_store (token : String) (s : Sys ε) :
    (x.useCase.ValidateToken token s).state.store = s.store := by
  rcases hv : x.useCase.tokenService.ValidateToken token s with ⟨err | ⟨userID, role⟩, s1⟩
  · have hv' : Sys.call (x.tokenService.ValidateToken token) s = (.error err, s1) := hv
    rw [ValidateToken_of_rejected x.useCase hv]
    exact (Sys.call_eq hv').2
  · have hv' : Sys.call (x.tokenService.ValidateToken token) s = (.ok (userID, role), s1) := hv
    rw [ValidateToken_of_verified x.useCase hv]
    exact (Sys.call_eq hv').2

/-- A successful `Logout` in the assembled system, told in terms of the
modelled table. -/
theorem useCase_Logout_ok_inv {token : String} {s : Sys ε}
    (h : (x.useCase.Logout token s).result = none) :
    ∃ r, RefreshTokenStore.FindByToken token s.store = .ok r ∧
      (x.useCase.Logout token s).state.store = RefreshTokenStore.Delete r.ID.String s.store ∧
      (x.useCase.Logout token s).calls = [.FindByToken token, .Delete r.ID.String] := by
  obtain ⟨r, s1, s2, hfind, hdel, hl⟩ := Logout_ok_inv x.useCase h
  have hfind' : x.tokenRepo.FindByToken token s = (.ok r, s1) := hfind
  have hdel' : x.tokenRepo.Delete r.ID.String s1 = (none, s2) := hdel
  have hst1 : s1.store = s.store := by
    have := tokenRepo_FindByToken_store x token s
    rwa [hfind'] at this
  have hf := tokenRepo_FindByToken_ok x (by rw [hfind'])
  have hd := tokenRepo_Delete_ok x (by rw [hdel'])
  rw [hdel'] at hd
  simp only at hd
  rw [hst1] at hd
  exact ⟨r, hf, by rw [hl]; exact hd, by rw [hl]⟩

theorem useCase_Logout_Keyed (token : String) (s : Sys ε) (hk : Keyed s.store) :
    Keyed (x.useCase.Logout token s).state.store := by
  rcases hfind : x.useCase.tokenRepo.FindByToken token s with ⟨err | r, s1⟩
  · have hfind' : x.tokenRepo.FindByToken token s = (.error err, s1) := hfind
    have hst1 : s1.store = s.store := by
      have := tokenRepo_FindByToken_store x token s
      rwa [hfind'] at this
    rw [Logout_of_find_error x.useCase hfind]
    simp only [hst1]
    exact hk
  · have hfind' : x.tokenRepo.FindByToken token s = (.ok r, s1) := hfind
    have hst1 : s1.store = s.store := by
      have := tokenRepo_FindByToken_store x token s
      rwa [hfind'] at this
    have hs2 : Keyed (x.tokenRepo.Delete r.ID.String s1).2.store := by
      rcases tokenRepo_Delete_store x r.ID.String s1 with h | h
      · rw [h, hst1]
        exact hk
      · rw [h, hst1]
        exact Keyed_Delete _ hk
    rcases hdel : x.useCase.tokenRepo.Delete r.ID.String s1 with ⟨_ | err, s2⟩
    · have hdel' : x.tokenRepo.Delete r.ID.String s1 = (none, s2) := hdel
      rw [Logout_of_delete_ok x.useCase hfind hdel]
      rw [hdel'] at hs2
      exact hs2
    · have hdel' : x.tokenRepo.Delete r.ID.String s1 = (some err, s2) := hdel
      rw [Logout_of_delete_error x.useCase hfind hdel]
      rw [hdel'] at hs2
      exact hs2

/-- Every reachable table is keyed. -/
theorem Reachable.keyed {s : Sys ε} (h : Reachable x s) : Keyed s.store := by
  induction h with
  | init e => exact Keyed_nil
  | outside s e _ ih => exact ih
  | Register s username email password _ ih =>
    exact useCase_Register_Keyed x username email password s ih
  | Login s email password _ ih => exact useCase_Login_Keyed x email password s ih
  | Refresh s token _ ih =>
    rw [useCase_Refresh_store]
    exact ih
  | ValidateToken s token _ ih =>
    rw [useCase_ValidateToken_store]
    exact ih
  | Logout s token _ ih => exact useCase_Logout_Keyed x token s ih

end SystemOperations

/-! ## What `Login` and `Logout` do to the table -/

/-- C8: every successful `Login` adds exactly one record at the end of the
table and leaves the records already there as they were.  The new record is
not among the old ones, its `Token` is the refresh token returned to the
caller, its `UserID` is the ID of the user found for the email and its `ID`
comes from `uuid.New`; the returned pair is what `GenerateAccessToken` and
`GenerateRefreshToken` produced for `(user.ID.String(), user.Role)`; `Save` is
called once, with that record. -/
theorem Login_adds_one_record {ε : Type} (x : Ext ε) (email password : String) (s : Sys ε)
    (toks : Tokens) (hlogin : (x.useCase.Login email password s).result = .ok toks) :
    ∃ user e1 e2 e3 record,
      x.userService.GetUserByEmail email s.ext = (.ok user, e1) ∧
      x.tokenService.GenerateAccessToken user.ID.String user.Role e1 =
        (.ok toks.AccessToken, e2) ∧
      x.tokenService.GenerateRefreshToken user.ID.String user.Role e2 =
        (.ok toks.RefreshToken, e3) ∧
      record.Token = toks.RefreshToken ∧
      record.UserID = user.ID ∧
      record.ID = (x.lib.uuidNew e3).1 ∧
      (x.useCase.Login email password s).state.store = s.store ++ [record] ∧
      record ∉ s.store ∧
      (x.useCase.Login email password s).calls =
        authUseCase.loginCalls email password user record := by
  obtain ⟨user, e1, e2, e3, hget, -, hacc, href, hsave, hcalls⟩ :=
    useCase_Login_ok_inv x hlogin
  obtain ⟨hst, hfree⟩ := (Save_ok_iff _ _ _).1 hsave
  exact ⟨user, e1, e2, e3, _, hget, hacc, href, rfl, rfl, rfl, hst,
    fun hmem => (hfree _ hmem).1 rfl, hcalls⟩

/-- Witness for C8: alice's second login to the demo system adds her second
record behind the first. -/
theorem Login_adds_one_record_witness :
    (Demo.ext.useCase.Login "alice@x.com" "Secret123!"
        (Demo.ext.useCase.Login "alice@x.com" "Secret123!" (Demo.start 5)).state).result =
        .ok { AccessToken := "A...|u-1user", RefreshToken := "R+...|u-1user" } ∧
      (Demo.ext.useCase.Login "alice@x.com" "Secret123!"
        (Demo.ext.useCase.Login "alice@x.com" "Secret123!" (Demo.start 5)).state).state.store =
        [{ ID := ⟨"t-1"⟩, UserID := ⟨"u-1"⟩, Token := "R...|u-1user", CreatedAt := 100 },
         { ID := ⟨"t-2"⟩, UserID := ⟨"u-1"⟩, Token := "R+...|u-1user", CreatedAt := 101 }] ∧
      ∃ user e1 e2 e3 record,
        Demo.ext.userService.GetUserByEmail "alice@x.com"
          (Demo.ext.useCase.Login "alice@x.com" "Secret123!" (Demo.start 5)).state.ext =
          (.ok user, e1) ∧
        Demo.ext.tokenService.GenerateAccessToken user.ID.String user.Role e1 =
          (.ok "A...|u-1user", e2) ∧
        Demo.ext.tokenService.GenerateRefreshToken user.ID.String user.Role e2 =
          (.ok "R+...|u-1user", e3) ∧
        record.Token = "R+...|u-1user" ∧
        record.UserID = user.ID ∧
        record.ID = (Demo.ext.lib.uuidNew e3).1 ∧
        (Demo.ext.useCase.Login "alice@x.com" "Secret123!"
          (Demo.ext.useCase.Login "alice@x.com" "Secret123!" (Demo.start 5)).state).state.store =
          (Demo.ext.useCase.Login "alice@x.com" "Secret123!" (Demo.start 5)).state.store ++
            [record] ∧
        record ∉ (Demo.ext.useCase.Login "alice@x.com" "Secret123!" (Demo.start 5)).state.store ∧
        (Demo.ext.useCase.Login "alice@x.com" "Secret123!"
          (Demo.ext.useCase.Login "alice@x.com" "Secret123!" (Demo.start 5)).state).calls =
          authUseCase.loginCalls "alice@x.com" "Secret123!" user record :=
  ⟨rfl, rfl, Login_adds_one_record Demo.ext "alice@x.com" "Secret123!"
    (Demo.ext.useCase.Login "alice@x.com" "Secret123!" (Demo.start 5)).state
    { AccessToken := "A...|u-1user", RefreshToken := "R+...|u-1user" } rfl⟩

/-- C2: in every state reachable from the empty table, if `Logout t` succeeds
then `Logout t` run right after it fails with `ErrFindRefreshToken`; it gets no
further than `FindByToken` and leaves the table unchanged. -/
theorem Logout_twice_fails {ε : Type} (x : Ext ε) (s : Sys ε) (hs : Reachable x s)
    (t : String) (hout : (x.useCase.Logout t s).result = none) :
    (x.useCase.Logout t (x.useCase.Logout t s).state).result = some .ErrFindRefreshToken ∧
    (x.useCase.Logout t (x.useCase.Logout t s).state).state.store =
      (x.useCase.Logout t s).state.store ∧
    (x.useCase.Logout t (x.useCase.Logout t s).state).calls = [.FindByToken t] := by
  obtain ⟨r, hfind, hst, -⟩ := useCase_Logout_ok_inv x hout
  obtain ⟨hr, hrt⟩ := FindByToken_ok hfind
  have hgone : ∀ r' ∈ (x.useCase.Logout t s).state.store, r'.Token ≠ t := by
    rw [hst, ← hrt]
    exact Delete_removes_token (Reachable.keyed x hs) hr
  obtain ⟨err, herr⟩ := tokenRepo_FindByToken_absent x hgone
  have hstore := tokenRepo_FindByToken_store x t (x.useCase.Logout t s).state
  rcases hf : x.useCase.tokenRepo.FindByToken t (x.useCase.Logout t s).state with ⟨res, s1⟩
  have hf' : x.tokenRepo.FindByToken t (x.useCase.Logout t s).state = (res, s1) := hf
  rw [hf'] at herr hstore
  simp only at herr hstore
  subst herr
  rw [Logout_of_find_error x.useCase hf]
  exact ⟨rfl, hstore, rfl⟩

/-- Witness for C2: alice logs in to the demo system and logs out twice. -/
theorem Logout_twice_fails_witness :
    Reachable Demo.ext (Demo.ext.useCase.Login "alice@x.com" "Secret123!" (Demo.start 5)).state ∧
      (Demo.ext.useCase.Logout "R...|u-1user"
        (Demo.ext.useCase.Login "alice@x.com" "Secret123!" (Demo.start 5)).state).result =
        none ∧
      (Demo.ext.useCase.Logout "R...|u-1user"
        (Demo.ext.useCase.Logout "R...|u-1user"
          (Demo.ext.useCase.Login "alice@x.com" "Secret123!" (Demo.start 5)).state).state).result =
        some .ErrFindRefreshToken :=
  ⟨Reachable.Login _ _ _ (Reachable.init _), rfl,
    (Logout_twice_fails Demo.ext _ (Reachable.Login _ "alice@x.com" "Secret123!"
      (Reachable.init (Demo.world 5))) "R...|u-1user" rfl).1⟩

/-- C7: in every reachable state a successful `Logout t` removes exactly one
record, the one `FindByToken t` returns, deleted by its ID: the table afterwards
is the table before with that record erased, one record shorter, and every
other record, whichever user it belongs to, is still there, unchanged and in
its place. -/
theorem Logout_removes_one_record {ε : Type} (x : Ext ε) (s : Sys ε) (hs : Reachable x s)
    (t : String) (hout : (x.useCase.Logout t s).result = none) :
    ∃ r, RefreshTokenStore.FindByToken t s.store = .ok r ∧
      r ∈ s.store ∧
      r.Token = t ∧
      (x.useCase.Logout t s).calls = [.FindByToken t, .Delete r.ID.String] ∧
      (x.useCase.Logout t s).state.store = s.store.erase r ∧
      (x.useCase.Logout t s).state.store.length + 1 = s.store.length ∧
      r ∉ (x.useCase.Logout t s).state.store ∧
      (∀ r', r' ∈ s.store → r' ≠ r → r' ∈ (x.useCase.Logout t s).state.store) ∧
      (x.useCase.Logout t s).state.store.Sublist s.store := by
  obtain ⟨r, hfind, hst, hcalls⟩ := useCase_Logout_ok_inv x hout
  obtain ⟨hr, hrt⟩ := FindByToken_ok hfind
  have hk := Reachable.keyed x hs
  have hnd : s.store.Nodup := List.Nodup.of_map _ hk.2
  rw [Delete_eq_erase hk hr] at hst
  refine ⟨r, hfind, hr, hrt, hcalls, hst, ?_, ?_, ?_, ?_⟩
  · rw [hst, List.length_erase_of_mem hr]
    have : 0 < s.store.length := List.length_pos_of_mem hr
    omega
  · rw [hst]
    exact fun h => (List.Nodup.mem_erase_iff hnd).1 h |>.1 rfl
  · intro r' hr' hne
    rw [hst]
    exact (List.mem_erase_of_ne hne).2 hr'
  · rw [hst]
    exact List.erase_sublist r s.store

/-- Witness for C7: alice is logged in to the demo system twice; logging out
with the first refresh token leaves her second record in place. -/
theorem Logout_removes_one_record_witness :
    (Demo.ext.useCase.Logout "R...|u-1user"
        (Demo.ext.useCase.Login "alice@x.com" "Secret123!"
          (Demo.ext.useCase.Login "alice@x.com" "Secret123!" (Demo.start 5)).state).state).result =
        none ∧
      (Demo.ext.useCase.Logout "R...|u-1user"
        (Demo.ext.useCase.Login "alice@x.com" "Secret123!"
          (Demo.ext.useCase.Login "alice@x.com" "Secret123!"
            (Demo.start 5)).state).state).state.store =
        [{ ID := ⟨"t-2"⟩, UserID := ⟨"u-1"⟩, Token := "R+...|u-1user", CreatedAt := 101 }] ∧
      ∃ r, RefreshTokenStore.FindByToken "R...|u-1user"
          (Demo.ext.useCase.Login "alice@x.com" "Secret123!"
            (Demo.ext.useCase.Login "alice@x.com" "Secret123!"
              (Demo.start 5)).state).state.store = .ok r ∧
        (Demo.ext.useCase.Logout "R...|u-1user"
          (Demo.ext.useCase.Login "alice@x.com" "Secret123!"
            (Demo.ext.useCase.Login "alice@x.com" "Secret123!"
              (Demo.start 5)).state).state).state.store =
          (Demo.ext.useCase.Login "alice@x.com" "Secret123!"
            (Demo.ext.useCase.Login "alice@x.com" "Secret123!"
              (Demo.start 5)).state).state.store.erase r :=
  ⟨rfl, rfl,
    have h := Logout_removes_one_record Demo.ext _
      (Reachable.Login _ "alice@x.com" "Secret123!"
        (Reachable.Login _ "alice@x.com" "Secret123!" (Reachable.init (Demo.world 5))))
      "R...|u-1user" rfl
    h.elim fun r hr => ⟨r, hr.1, hr.2.2.2.2.1⟩⟩

/-! ## `Register` -/

section RegisterBranches

variable {σ : Type} (uc : authUseCase σ)

theorem Register_of_create_error {username email password : String} {s s1 : σ} {err : Error}
    (hc : uc.userService.CreateUser username email password s = (some err, s1)) :
    uc.Register username email password s =
      ⟨.error .ErrCreateUser, s1, [.CreateUser username email password]⟩ := by
  simp only [authUseCase.Register, hc]

theorem Register_of_create_ok {username email password : String} {s s1 : σ}
    (hc : uc.userService.CreateUser username email password s = (none, s1)) :
    uc.Register username email password s =
      ⟨(uc.Login email password s1).result, (uc.Login email password s1).state,
        .CreateUser username email password :: (uc.Login email password s1).calls⟩ := by
  simp only [authUseCase.Register, hc]

end RegisterBranches

/-- C11: `Register` has no behaviour of its own beyond user creation.  If the
directory's `CreateUser` fails, `Register` returns `ErrCreateUser`, makes no
call but that one (so no `Login` runs) and leaves the refresh-token table
unchanged.  If `CreateUser` succeeds, the result of `Register`, the state it
leaves behind (the table included) and the calls it makes after the creation
are exactly those of `Login email password` run on the state after
creation. -/
theorem Register_is_CreateUser_then_Login {ε : Type} (x : Ext ε)
    (username email password : String) (s : Sys ε) :
    (∀ err e1, x.userService.CreateUser username email password s.ext = (some err, e1) →
      (x.useCase.Register username email password s).result = .error .ErrCreateUser ∧
      (x.useCase.Register username email password s).state.store = s.store ∧
      (x.useCase.Register username email password s).state.ext = e1 ∧
      (x.useCase.Register username email password s).calls =
        [.CreateUser username email password]) ∧
    (∀ e1, x.userService.CreateUser username email password s.ext = (none, e1) →
      (x.useCase.Register username email password s).result =
        (x.useCase.Login email password { store := s.store, ext := e1 }).result ∧
      (x.useCase.Register username email password s).state =
        (x.useCase.Login email password { store := s.store, ext := e1 }).state ∧
      (x.useCase.Register username email password s).calls =
        .CreateUser username email password ::
          (x.useCase.Login email password { store := s.store, ext := e1 }).calls) := by
  constructor
  · intro err e1 hc
    have hc' : x.useCase.userService.CreateUser username email password s =
        (some err, { store := s.store, ext := e1 }) := by
      show Sys.call (x.userService.CreateUser username email password) s = _
      simp only [Sys.call, hc]
    rw [Register_of_create_error x.useCase hc']
    exact ⟨rfl, rfl, rfl, rfl⟩
  · intro e1 hc
    have hc' : x.useCase.userService.CreateUser username email password s =
        (none, { store := s.store, ext := e1 }) := by
      show Sys.call (x.userService.CreateUser username email password) s = _
      simp only [Sys.call, hc]
    rw [Register_of_create_ok x.useCase hc']
    exact ⟨rfl, rfl, rfl⟩

/-- Witness for C11: in the demo system alice's email is taken, so her second
registration creates nothing and touches nothing; bob's registration creates
him and then is his first login. -/
theorem Register_is_CreateUser_then_Login_witness :
    ((Demo.ext.useCase.Register "alice" "alice@x.com" "Secret123!" (Demo.start 5)).result =
        .error .ErrCreateUser ∧
      (Demo.ext.useCase.Register "alice" "alice@x.com" "Secret123!" (Demo.start 5)).state.store =
        [] ∧
      (Demo.ext.useCase.Register "alice" "alice@x.com" "Secret123!" (Demo.start 5)).calls =
        [.CreateUser "alice" "alice@x.com" "Secret123!"]) ∧
    ((Demo.ext.useCase.Register "bob_1" "bob@x.com" "hunter2" (Demo.start 5)).result =
        .ok { AccessToken := "A...|t-1user", RefreshToken := "R...|t-1user" } ∧
      (Demo.ext.useCase.Register "bob_1" "bob@x.com" "hunter2" (Demo.start 5)).result =
        (Demo.ext.useCase.Login "bob@x.com" "hunter2"
          { store := [],
            ext := (Demo.CreateUser "bob_1" "bob@x.com" "hunter2" (Demo.world 5)).2 }).result ∧
      (Demo.ext.useCase.Register "bob_1" "bob@x.com" "hunter2" (Demo.start 5)).state.store =
        [{ ID := ⟨"t-2"⟩, UserID := ⟨"t-1"⟩, Token := "R...|t-1user", CreatedAt := 100 }]) := by
  have ha := (Register_is_CreateUser_then_Login Demo.ext "alice" "alice@x.com" "Secret123!"
    (Demo.start 5)).1 (.other "user already exists") (Demo.world 5) rfl
  have hb := (Register_is_CreateUser_then_Login Demo.ext "bob_1" "bob@x.com" "hunter2"
    (Demo.start 5)).2 (Demo.CreateUser "bob_1" "bob@x.com" "hunter2" (Demo.world 5)).2 rfl
  exact ⟨⟨ha.1, ha.2.1, ha.2.2.2⟩, rfl, hb.1, rfl⟩

/-! ## Which errors the operations return -/

/-- C12, as the code has it: every error a collaborator returns is replaced by
a fixed sentinel that depends only on which call failed, with one exception:
the error of the directory's `GetUserByEmail` is handed back by `Login`, and
through it by `Register`, as it is.  Call by call: `CreateUser` gives
`ErrCreateUser`; a failed hash comparison `ErrIncorrectPassword`; in `Login`
`GenerateAccessToken` gives `ErrGetAccessToken`, `GenerateRefreshToken`
`ErrGenerateRefreshToken` and `Save` `ErrSaveRefreshToken`; in `Refresh`
`ValidateToken` gives `ErrInvalidRefreshToken` and `GenerateAccessToken`
`ErrGenerateAccessToken`; in `ValidateToken` it gives `ErrValidateToken`; in
`Logout` `FindByToken` gives `ErrFindRefreshToken` and `Delete`
`ErrDeleteRefreshToken`.  Every error an operation returns is therefore a
sentinel or the error of a failed `GetUserByEmail`. -/
theorem collaborator_errors_become_sentinels {σ : Type} (uc : authUseCase σ) :
    (∀ username email password s err s1,
      uc.userService.CreateUser username email password s = (some err, s1) →
      (uc.Register username email password s).result = .error .ErrCreateUser) ∧
    (∀ email password s err s1,
      uc.userService.GetUserByEmail email s = (.error err, s1) →
      (uc.Login email password s).result = .error err) ∧
    (∀ email password s user s1 err,
      uc.userService.GetUserByEmail email s = (.ok user, s1) →
      uc.lib.CompareHashAndPassword user.PasswordHash password = some err →
      (uc.Login email password s).result = .error .ErrIncorrectPassword) ∧
    (∀ email password s user s1 err s2,
      uc.userService.GetUserByEmail email s = (.ok user, s1) →
      validatePassword uc.lib password user.PasswordHash = true →
      uc.tokenService.GenerateAccessToken user.ID.String user.Role s1 = (.error err, s2) →
      (uc.Login email password s).result = .error .ErrGetAccessToken) ∧
    (∀ email password s user s1 a s2 err s3,
      uc.userService.GetUserByEmail email s = (.ok user, s1) →
      validatePassword uc.lib password user.PasswordHash = true →
      uc.tokenService.GenerateAccessToken user.ID.String user.Role s1 = (.ok a, s2) →
      uc.tokenService.GenerateRefreshToken user.ID.String user.Role s2 = (.error err, s3) →
      (uc.Login email password s).result = .error .ErrGenerateRefreshToken) ∧
    (∀ email password s user s1 a s2 r s3 err s6,
      uc.userService.GetUserByEmail email s = (.ok user, s1) →
      validatePassword uc.lib password user.PasswordHash = true →
      uc.tokenService.GenerateAccessToken user.ID.String user.Role s1 = (.ok a, s2) →
      uc.tokenService.GenerateRefreshToken user.ID.String user.Role s2 = (.ok r, s3) →
      uc.tokenRepo.Save (uc.newToken user r s3) (uc.atSave s3) = (some err, s6) →
      (uc.Login email password s).result = .error .ErrSaveRefreshToken) ∧
    (∀ token s err s1,
      uc.tokenService.ValidateToken token s = (.error err, s1) →
      (uc.Refresh token s).result = .error .ErrInvalidRefreshToken ∧
      (uc.ValidateToken token s).result.2.2 = some .ErrValidateToken) ∧
    (∀ token s userID role s1 err s2,
      uc.tokenService.ValidateToken token s = (.ok (userID, role), s1) →
      uc.tokenService.GenerateAccessToken userID role s1 = (.error err, s2) →
      (uc.Refresh token s).result = .error .ErrGenerateAccessToken) ∧
    (∀ token s err s1,
      uc.tokenRepo.FindByToken token s = (.error err, s1) →
      (uc.Logout token s).result = some .ErrFindRefreshToken) ∧
    (∀ token s r s1 err s2,
      uc.tokenRepo.FindByToken token s = (.ok r, s1) →
      uc.tokenRepo.Delete r.ID.String s1 = (some err, s2) →
      (uc.Logout token s).result = some .ErrDeleteRefreshToken) ∧
    (∀ email password s err, (uc.Login email password s).result = .error err →
      err.isSentinel = true ∨ ∃ s1, uc.userService.GetUserByEmail email s = (.error err, s1)) ∧
    (∀ username email password s err,
      (uc.Register username email password s).result = .error err →
      err.isSentinel = true ∨
        ∃ s1 s2, uc.userService.CreateUser username email password s = (none, s1) ∧
          uc.userService.GetUserByEmail email s1 = (.error err, s2)) ∧
    (∀ token s err, (uc.Refresh token s).result = .error err → err.isSentinel = true) ∧
    (∀ token s err, (uc.ValidateToken token s).result.2.2 = some err →
      err.isSentinel = true) ∧
    (∀ token s err, (uc.Logout token s).result = some err → err.isSentinel = true) := by
  have hLogin : ∀ email password s err, (uc.Login email password s).result = .error err →
      err.isSentinel = true ∨
        ∃ s1, uc.userService.GetUserByEmail email s = (.error err, s1) := by
    intro email password s err h
    rcases hget : uc.userService.GetUserByEmail email s with ⟨e | user, s1⟩
    · rw [Login_of_directory_error uc hget] at h
      injection h with h
      subst h
      exact Or.inr ⟨s1, rfl⟩
    · left
      cases hpw : validatePassword uc.lib password user.PasswordHash
      · rw [Login_of_wrong_password uc hget hpw] at h
        injection h with h
        subst h
        rfl
      · rcases hacc : uc.tokenService.GenerateAccessToken user.ID.String user.Role s1
          with ⟨e | a, s2⟩
        · rw [Login_of_access_error uc hget hpw hacc] at h
          injection h with h
          subst h
          rfl
        · rcases href : uc.tokenService.GenerateRefreshToken user.ID.String user.Role s2
            with ⟨e | r, s3⟩
          · rw [Login_of_refresh_error uc hget hpw hacc href] at h
            injection h with h
            subst h
            rfl
          · rcases hsave : uc.tokenRepo.Save (uc.newToken user r s3) (uc.atSave s3)
              with ⟨_ | e, s6⟩
            · rw [Login_of_save_ok uc hget hpw hacc href hsave] at h
              cases h
            · rw [Login_of_save_error uc hget hpw hacc href hsave] at h
              injection h with h
              subst h
              rfl
  refine ⟨?_, ?_, ?_, ?_, ?_, ?_, ?_, ?_, ?_, ?_, hLogin, ?_, ?_, ?_, ?_⟩
  · intro username email password s err s1 hc
    rw [Register_of_create_error uc hc]
  · intro email password s err s1 hget
    rw [Login_of_directory_error uc hget]
  · intro email password s user s1 err hget hcmp
    have hpw : validatePassword uc.lib password user.PasswordHash = false := by
      simp [validatePassword, hcmp]
    rw [Login_of_wrong_password uc hget hpw]
  · intro email password s user s1 err s2 hget hpw hacc
    rw [Login_of_access_error uc hget hpw hacc]
  · intro email password s user s1 a s2 err s3 hget hpw hacc href
    rw [Login_of_refresh_error uc hget hpw hacc href]
  · intro email password s user s1 a s2 r s3 err s6 hget hpw hacc href hsave
    rw [Login_of_save_error uc hget hpw hacc href hsave]
  · intro token s err s1 hval
    rw [Refresh_of_rejected uc hval, ValidateToken_of_rejected uc hval]
    exact ⟨rfl, rfl⟩
  · intro token s userID role s1 err s2 hval hacc
    rw [Refresh_of_generate_error uc hval hacc]
  · intro token s err s1 hfind
    rw [Logout_of_find_error uc hfind]
  · intro token s r s1 err s2 hfind hdel
    rw [Logout_of_delete_error uc hfind hdel]
  · intro username email password s err h
    rcases hc : uc.userService.CreateUser username email password s with ⟨_ | e, s1⟩
    · rw [Register_of_create_ok uc hc] at h
      rcases hLogin email password s1 err h with hs | ⟨s2, hget⟩
      · exact Or.inl hs
      · exact Or.inr ⟨s1, s2, rfl, hget⟩
    · rw [Register_of_create_error uc hc] at h
      injection h with h
      subst h
      exact Or.inl rfl
  · intro token s err h
    rcases hval : uc.tokenService.ValidateToken token s with ⟨e | ⟨userID, role⟩, s1⟩
    · rw [Refresh_of_rejected uc hval] at h
      injection h with h
      subst h
      rfl
    · rcases hacc : uc.tokenService.GenerateAccessToken userID role s1 with ⟨e | a, s2⟩
      · rw [Refresh_of_generate_error uc hval hacc] at h
        injection h with h
        subst h
        rfl
      · rw [Refresh_of_generate_ok uc hval hacc] at h
        cases h
  · intro token s err h
    rcases hval : uc.tokenService.ValidateToken token s with ⟨e | ⟨userID, role⟩, s1⟩
    · rw [ValidateToken_of_rejected uc hval] at h
      injection h with h
      subst h
      rfl
    · rw [ValidateToken_of_verified uc hval] at h
      cases h
  · intro token s err h
    rcases hfind : uc.tokenRepo.FindByToken token s with ⟨e | r, s1⟩
    · rw [Logout_of_find_error uc hfind] at h
      injection h with h
      subst h
      rfl
    · rcases hdel : uc.tokenRepo.Delete r.ID.String s1 with ⟨_ | e, s2⟩
      · rw [Logout_of_delete_ok uc hfind hdel] at h
        cases h
      · rw [Logout_of_delete_error uc hfind hdel] at h
        injection h with h
        subst h
        rfl

/-- Witness for C12 as amended: in the demo system a string that is no token
makes `Refresh` and `ValidateToken` return their sentinels, whatever the token
service said. -/
theorem collaborator_errors_become_sentinels_witness :
    Demo.ext.useCase.tokenService.ValidateToken "garbage" (Demo.start 5) =
        (.error (.other "malformed token"), Demo.start 5) ∧
      (Demo.ext.useCase.Refresh "garbage" (Demo.start 5)).result =
        .error .ErrInvalidRefreshToken ∧
      (Demo.ext.useCase.ValidateToken "garbage" (Demo.start 5)).result.2.2 =
        some .ErrValidateToken :=
  ⟨rfl, (collaborator_errors_become_sentinels Demo.ext.useCase).2.2.2.2.2.2.1
    "garbage" (Demo.start 5) (.other "malformed token") (Demo.start 5) rfl⟩

/-- C12 fails as stated: in the demo system nobody is registered under bob's
email; `Login` returns the directory's own error, which is none of the
package's sentinels. -/
theorem Login_returns_directory_error_itself :
    Demo.ext.useCase.userService.GetUserByEmail "bob@x.com" (Demo.start 5) =
        (.error (.other "user not found"), Demo.start 5) ∧
      (Demo.ext.useCase.Login "bob@x.com" "hunter2" (Demo.start 5)).result =
        .error (.other "user not found") ∧
      (Error.other "user not found").isSentinel = false :=
  ⟨rfl, rfl, rfl⟩

end Auth

namespace Users

/-! ## What the matcher computes -/

theorem mem_rests_charClass (cls : CharClass) (text left : List Char) :
    left ∈ (Regexp.charClass cls).rests text ↔ ∃ c, text = c :: left ∧ cls.has c = true := by
  cases text with
  | nil => simp [Regexp.rests]
  | cons d rest =>
    by_cases h : cls.has d = true
    · simp only [Regexp.rests, h, if_true, List.mem_singleton]
      constructor
      · rintro rfl
        exact ⟨d, rfl, h⟩
      · rintro ⟨c, hc, -⟩
        injection hc with _ h2
        exact h2.symm
    · simp only [Regexp.rests, h]
      constructor
      · intro hm
        simp at hm
      · rintro ⟨c, hc, hcls⟩
        injection hc with h1 _
        subst h1
        exact absurd hcls h

theorem mem_rests_literal (c : Char) (text left : List Char) :
    left ∈ (Regexp.literal c).rests text ↔ text = c :: left := by
  cases text with
  | nil => simp [Regexp.rests]
  | cons d rest =>
    by_cases h : d = c
    · subst h
      simp [Regexp.rests, eq_comm]
    · simp [Regexp.rests, h]

theorem mem_rests_concat (r s : Regexp) (text left : List Char) :
    left ∈ (Regexp.concat r s).rests text ↔ ∃ mid, mid ∈ r.rests text ∧ left ∈ s.rests mid := by
  simp [Regexp.rests, List.mem_flatMap]

section Repetition

variable {f : List Char → List (List Char)} {p : Char → Bool}

theorem mem_iterate (hf : ∀ text left, left ∈ f text ↔ ∃ c, text = c :: left ∧ p c = true)
    (n : Nat) (text left : List Char) :
    left ∈ iterate f n text ↔
      ∃ pre, text = pre ++ left ∧ pre.length = n ∧ ∀ c ∈ pre, p c = true := by
  induction n generalizing text with
  | zero =>
    simp only [iterate, List.mem_singleton]
    constructor
    · rintro rfl
      exact ⟨[], rfl, rfl, by simp⟩
    · rintro ⟨pre, h, hlen, -⟩
      rw [List.length_eq_zero] at hlen
      subst hlen
      exact h.symm
  | succ n ih =>
    simp only [iterate, List.mem_flatMap]
    constructor
    · rintro ⟨mid, hmid, hleft⟩
      obtain ⟨c, rfl, hc⟩ := (hf _ _).1 hmid
      obtain ⟨pre, rfl, hlen, hall⟩ := (ih _).1 hleft
      refine ⟨c :: pre, rfl, by simp [hlen], ?_⟩
      intro d hd
      rcases List.mem_cons.1 hd with rfl | hd
      · exact hc
      · exact hall d hd
    · rintro ⟨pre, rfl, hlen, hall⟩
      cases pre with
      | nil => simp at hlen
      | cons c pre =>
        refine ⟨pre ++ left, (hf _ _).2 ⟨c, rfl, hall c (List.mem_cons_self _ _)⟩, ?_⟩
        exact (ih _).2 ⟨pre, rfl, by simpa using hlen,
          fun d hd => hall d (List.mem_cons_of_mem _ hd)⟩

theorem mem_star (hf : ∀ text left, left ∈ f text ↔ ∃ c, text = c :: left ∧ p c = true)
    (fuel : Nat) (text left : List Char) (hfuel : text.length ≤ fuel) :
    left ∈ star f fuel text ↔ ∃ pre, text = pre ++ left ∧ ∀ c ∈ pre, p c = true := by
  induction fuel generalizing text with
  | zero =>
    have ht : text = [] := List.length_eq_zero.1 (Nat.le_zero.1 hfuel)
    subst ht
    simp only [star, List.mem_singleton]
    constructor
    · rintro rfl
      exact ⟨[], rfl, by simp⟩
    · rintro ⟨pre, h, -⟩
      exact (List.append_eq_nil.1 h.symm).2
  | succ fuel ih =>
    simp only [star, List.mem_cons, List.mem_flatMap, List.mem_filter, decide_eq_true_eq]
    constructor
    · rintro (rfl | ⟨mid, ⟨hmid, hshort⟩, hleft⟩)
      · exact ⟨[], rfl, by simp⟩
      · obtain ⟨c, rfl, hc⟩ := (hf _ _).1 hmid
        have hlen : mid.length ≤ fuel := by
          simp only [List.length_cons] at hfuel
          omega
        obtain ⟨pre, rfl, hall⟩ := (ih _ hlen).1 hleft
        refine ⟨c :: pre, rfl, ?_⟩
        intro d hd
        rcases List.mem_cons.1 hd with rfl | hd
        · exact hc
        · exact hall d hd
    · rintro ⟨pre, rfl, hall⟩
      cases pre with
      | nil => exact Or.inl rfl
      | cons c pre =>
        right
        have hlen : (pre ++ left).length ≤ fuel := by
          simp only [List.cons_append, List.length_cons] at hfuel
          omega
        refine ⟨pre ++ left,
          ⟨(hf _ _).2 ⟨c, rfl, hall c (List.mem_cons_self _ _)⟩, by simp⟩, ?_⟩
        exact (ih _ hlen).2 ⟨pre, rfl, fun d hd => hall d (List.mem_cons_of_mem _ hd)⟩

end Repetition

/-- `[...]{min,}` consumes `min` or more characters of the class. -/
theorem mem_rests_repeatMin_charClass (min : Nat) (cls : CharClass) (text left : List Char) :
    left ∈ (Regexp.repeatMin min (.charClass cls)).rests text ↔
      ∃ pre, text = pre ++ left ∧ min ≤ pre.length ∧ ∀ c ∈ pre, cls.has c = true := by
  have hf := mem_rests_charClass cls
  simp only [Regexp.rests, List.mem_flatMap]
  constructor
  · rintro ⟨mid, hmid, hleft⟩
    obtain ⟨pre1, rfl, hlen, hall1⟩ := (mem_iterate hf min _ _).1 hmid
    obtain ⟨pre2, rfl, hall2⟩ := (mem_star hf _ _ _ (Nat.le_refl _)).1 hleft
    refine ⟨pre1 ++ pre2, by simp, by simp [hlen], ?_⟩
    intro c hc
    rcases List.mem_append.1 hc with h | h
    · exact hall1 c h
    · exact hall2 c h
  · rintro ⟨pre, rfl, hlen, hall⟩
    refine ⟨pre.drop min ++ left, (mem_iterate hf min _ _).2 ⟨pre.take min, ?_, ?_, ?_⟩,
      (mem_star hf _ _ _ (Nat.le_refl _)).2 ⟨pre.drop min, rfl, ?_⟩⟩
    · rw [← List.append_assoc, List.take_append_drop]
    · simp [List.length_take, hlen]
    · exact fun c hc => hall c (List.mem_of_mem_take hc)
    · exact fun c hc => hall c (List.mem_of_mem_drop hc)


theorem MatchString_iff (r : Regexp) (s : String) :
    r.MatchString s = true ↔ [] ∈ r.rests s.data := by
  simp [Regexp.MatchString]

theorem has_letter (c : Char) :
    CharClass.has [('a', 'z'), ('A', 'Z')] c = isASCIILetter c := by
  simp [CharClass.has, isASCIILetter, isLower]

theorem has_word (c : Char) :
    CharClass.has [('a', 'z'), ('A', 'Z'), ('0', '9'), ('_', '_')] c =
      (isASCIILetter c || isASCIIDigit c || c == '_') := by
  have h : (decide ('_' ≤ c) && decide (c ≤ '_')) = (c == '_') := by
    rw [Bool.eq_iff_iff]
    simp only [Bool.and_eq_true, decide_eq_true_eq, beq_iff_eq]
    constructor
    · rintro ⟨h1, h2⟩
      exact Char.le_antisymm h2 h1
    · rintro rfl
      exact ⟨Char.le_refl _, Char.le_refl _⟩
  simp only [CharClass.has, List.any_cons, List.any_nil, Bool.or_false, h, isASCIILetter,
    isLower, isASCIIDigit, Bool.or_assoc]

/-- The username pattern says what the format in words says. -/
theorem isValidUsername_eq_usernameFormat (username : String) :
    isValidUsername username = usernameFormat username := by
  rw [Bool.eq_iff_iff, isValidUsername, MatchString_iff, usernamePattern, mem_rests_concat]
  have hlen : username.length = username.data.length := rfl
  simp only [mem_rests_charClass, mem_rests_repeatMin_charClass, has_letter, has_word,
    usernameFormat, hlen]
  constructor
  · rintro ⟨mid, ⟨c, hdata, hc⟩, pre, hmid, hmin, hall⟩
    have hpre : mid = pre := by simpa using hmid
    subst hpre
    rw [hdata]
    simp only [Bool.and_eq_true, decide_eq_true_eq, List.length_cons, List.all_eq_true]
    exact ⟨by omega, hc, hall⟩
  · intro h
    cases hdata : username.data with
    | nil =>
      rw [hdata] at h
      simp at h
    | cons c others =>
      rw [hdata] at h
      simp only [Bool.and_eq_true, decide_eq_true_eq, List.length_cons, List.all_eq_true] at h
      exact ⟨others, ⟨c, rfl, h.2.1⟩, others, by simp, by omega, h.2.2⟩

theorem single_range (k c : Char) : (decide (k ≤ c) && decide (c ≤ k)) = (c == k) := by
  rw [Bool.eq_iff_iff]
  simp only [Bool.and_eq_true, decide_eq_true_eq, beq_iff_eq]
  constructor
  · rintro ⟨h1, h2⟩
    exact Char.le_antisymm h2 h1
  · rintro rfl
    exact ⟨Char.le_refl _, Char.le_refl _⟩

theorem has_name (c : Char) :
    CharClass.has [('a', 'z'), ('0', '9'), ('.', '.'), ('_', '_'), ('%', '%'), ('+', '+'),
        ('-', '-')] c =
      (isLower c || isASCIIDigit c || c == '.' || c == '_' || c == '%' || c == '+' ||
        c == '-') := by
  simp only [CharClass.has, List.any_cons, List.any_nil, Bool.or_false, single_range, isLower,
    isASCIIDigit, Bool.or_assoc]

theorem has_domain (c : Char) :
    CharClass.has [('a', 'z'), ('0', '9'), ('.', '.'), ('-', '-')] c =
      (isLower c || isASCIIDigit c || c == '.' || c == '-') := by
  simp only [CharClass.has, List.any_cons, List.any_nil, Bool.or_false, single_range, isLower,
    isASCIIDigit, Bool.or_assoc]

theorem has_lower (c : Char) : CharClass.has [('a', 'z')] c = isLower c := by
  simp only [CharClass.has, List.any_cons, List.any_nil, Bool.or_false, isLower]

/-- The email pattern says what the format in words says. -/
theorem isValidEmail_iff_emailFormat (email : String) :
    isValidEmail email = true ↔ emailFormat email := by
  rw [isValidEmail, MatchString_iff, emailPattern]
  simp only [mem_rests_concat, mem_rests_literal, mem_rests_repeatMin_charClass, has_name,
    has_domain, has_lower, emailFormat]
  constructor
  · rintro ⟨m1, ⟨name, hdata, hname, hallname⟩, m2, hm1, m3, ⟨domain, hm2, hdomain, halldomain⟩,
      m4, hm3, tld, hm4, htld, halltld⟩
    refine ⟨name, domain, tld, ?_, ?_, hallname, ?_, halldomain, htld, halltld⟩
    · rw [hdata, hm1, hm2, hm3, hm4, List.append_nil]
    · intro h
      rw [h] at hname
      simp at hname
    · intro h
      rw [h] at hdomain
      simp at hdomain
  · rintro ⟨name, domain, tld, hdata, hname, hallname, hdomain, halldomain, htld, halltld⟩
    refine ⟨'@' :: (domain ++ '.' :: tld), ⟨name, hdata, ?_, hallname⟩, domain ++ '.' :: tld,
      rfl, '.' :: tld, ⟨domain, rfl, ?_, halldomain⟩, tld, rfl, tld, by simp, htld, halltld⟩
    · exact Nat.succ_le_of_lt (List.length_pos.2 hname)
    · exact Nat.succ_le_of_lt (List.length_pos.2 hdomain)

/-! ## `CreateUser` -/

section CreateUserBranches

variable {σ : Type} (u : userUseCase σ)

theorem CreateUser_of_existing {user existing : User} {err : Option Error} {s s1 : σ}
    (hget : u.repo.GetUserByID user.ID s = ((some existing, err), s1)) :
    u.CreateUser user s = ⟨some ⟨"user already exists"⟩, s1, [.GetUserByID user.ID]⟩ := by
  simp only [userUseCase.CreateUser, hget]

theorem CreateUser_of_bad_email {user : User} {err : Option Error} {s s1 : σ}
    (hget : u.repo.GetUserByID user.ID s = ((none, err), s1))
    (hemail : isValidEmail user.Email = false) :
    u.CreateUser user s = ⟨some ⟨"invalid email format"⟩, s1, [.GetUserByID user.ID]⟩ := by
  simp [userUseCase.CreateUser, hget, hemail]

theorem CreateUser_of_bad_username {user : User} {err : Option Error} {s s1 : σ}
    (hget : u.repo.GetUserByID user.ID s = ((none, err), s1))
    (hemail : isValidEmail user.Email = true)
    (hname : isValidUsername user.Username = false) :
    u.CreateUser user s = ⟨some ⟨"invalid username format"⟩, s1, [.GetUserByID user.ID]⟩ := by
  simp [userUseCase.CreateUser, hget, hemail, hname]

theorem CreateUser_of_valid {user : User} {err : Option Error} {s s1 : σ}
    (hget : u.repo.GetUserByID user.ID s = ((none, err), s1))
    (hemail : isValidEmail user.Email = true)
    (hname : isValidUsername user.Username = true) :
    u.CreateUser user s =
      ⟨(u.repo.CreateUser user s1).1, (u.repo.CreateUser user s1).2,
        [.GetUserByID user.ID, .CreateUser user]⟩ := by
  simp [userUseCase.CreateUser, hget, hemail, hname]

end CreateUserBranches

/-- C13: `CreateUser` forwards to `repo.CreateUser` if and only if the lookup
by `user.ID` finds no existing user, the email matches
`^[a-z0-9._%+-]+@[a-z0-9.-]+\.[a-z]{2,}$` and the username has at least 5
characters, starts with an ASCII letter and otherwise contains only ASCII
letters, digits and underscores; it then returns what `repo.CreateUser`
returns.  Otherwise it returns "user already exists", "invalid email format"
or "invalid username format", in that order of precedence, and the lookup is
the only repository call.  Matching the email pattern means having the email
format in words. -/
theorem CreateUser_forwards_iff {σ : Type} (u : userUseCase σ) (user : User) (s : σ) :
    (Call.CreateUser user ∈ (u.CreateUser user s).calls ↔
      (u.repo.GetUserByID user.ID s).1.1 = none ∧ isValidEmail user.Email = true ∧
        usernameFormat user.Username = true) ∧
    ((u.repo.GetUserByID user.ID s).1.1 = none → isValidEmail user.Email = true →
      usernameFormat user.Username = true →
      (u.CreateUser user s).result =
        (u.repo.CreateUser user (u.repo.GetUserByID user.ID s).2).1 ∧
      (u.CreateUser user s).state =
        (u.repo.CreateUser user (u.repo.GetUserByID user.ID s).2).2 ∧
      (u.CreateUser user s).calls = [.GetUserByID user.ID, .CreateUser user]) ∧
    ((u.repo.GetUserByID user.ID s).1.1 ≠ none →
      (u.CreateUser user s).result = some ⟨"user already exists"⟩ ∧
      (u.CreateUser user s).calls = [.GetUserByID user.ID]) ∧
    ((u.repo.GetUserByID user.ID s).1.1 = none → isValidEmail user.Email = false →
      (u.CreateUser user s).result = some ⟨"invalid email format"⟩ ∧
      (u.CreateUser user s).calls = [.GetUserByID user.ID]) ∧
    ((u.repo.GetUserByID user.ID s).1.1 = none → isValidEmail user.Email = true →
      usernameFormat user.Username = false →
      (u.CreateUser user s).result = some ⟨"invalid username format"⟩ ∧
      (u.CreateUser user s).calls = [.GetUserByID user.ID]) ∧
    (isValidEmail user.Email = true ↔ emailFormat user.Email) := by
  refine ⟨?_, ?_, ?_, ?_, ?_, isValidEmail_iff_emailFormat user.Email⟩
  · rw [← isValidUsername_eq_usernameFormat]
    rcases hget : u.repo.GetUserByID user.ID s with ⟨⟨_ | existing, err⟩, s1⟩
    · cases hemail : isValidEmail user.Email
      · rw [CreateUser_of_bad_email u hget hemail]
        simp
      · cases hname : isValidUsername user.Username
        · rw [CreateUser_of_bad_username u hget hemail hname]
          simp
        · rw [CreateUser_of_valid u hget hemail hname]
          simp
    · rw [CreateUser_of_existing u hget]
      simp
  · rw [← isValidUsername_eq_usernameFormat]
    intro hnone hemail hname
    rcases hget : u.repo.GetUserByID user.ID s with ⟨⟨existing, err⟩, s1⟩
    rw [hget] at hnone
    simp only at hnone
    subst hnone
    rw [CreateUser_of_valid u hget hemail hname]
    exact ⟨rfl, rfl, rfl⟩
  · intro hsome
    rcases hget : u.repo.GetUserByID user.ID s with ⟨⟨_ | existing, err⟩, s1⟩
    · rw [hget] at hsome
      exact absurd rfl hsome
    · rw [CreateUser_of_existing u hget]
      exact ⟨rfl, rfl⟩
  · intro hnone hemail
    rcases hget : u.repo.GetUserByID user.ID s with ⟨⟨existing, err⟩, s1⟩
    rw [hget] at hnone
    simp only at hnone
    subst hnone
    rw [CreateUser_of_bad_email u hget hemail]
    exact ⟨rfl, rfl⟩
  · rw [← isValidUsername_eq_usernameFormat]
    intro hnone hemail hname
    rcases hget : u.repo.GetUserByID user.ID s with ⟨⟨existing, err⟩, s1⟩
    rw [hget] at hnone
    simp only at hnone
    subst hnone
    rw [CreateUser_of_bad_username u hget hemail hname]
    exact ⟨rfl, rfl⟩

/-- Witness for C13: over the list repository alice is created when the list
is empty and refused when she is in it; a capital letter spoils her email, a
leading digit her username. -/
theorem CreateUser_forwards_iff_witness :
    ((Demo.useCase.CreateUser Demo.alice []).result = none ∧
      (Demo.useCase.CreateUser Demo.alice []).state = [Demo.alice] ∧
      (Demo.useCase.CreateUser Demo.alice []).calls =
        [.GetUserByID Demo.alice.ID, .CreateUser Demo.alice]) ∧
    (Demo.useCase.CreateUser Demo.alice [Demo.alice]).result =
      some ⟨"user already exists"⟩ ∧
    (Demo.useCase.CreateUser { Demo.alice with Email := "Alice@x.com", Username := "1" }
      []).result = some ⟨"invalid email format"⟩ ∧
    (Demo.useCase.CreateUser { Demo.alice with Username := "1alice" } []).result =
      some ⟨"invalid username format"⟩ := by
  have h1 := (CreateUser_forwards_iff Demo.useCase Demo.alice []).2.1 rfl rfl rfl
  have h2 := (CreateUser_forwards_iff Demo.useCase Demo.alice [Demo.alice]).2.2.1
    (by decide)
  have h3 := (CreateUser_forwards_iff Demo.useCase
    { Demo.alice with Email := "Alice@x.com", Username := "1" } []).2.2.2.1 rfl rfl
  have h4 := (CreateUser_forwards_iff Demo.useCase
    { Demo.alice with Username := "1alice" } []).2.2.2.2.1 rfl rfl rfl
  exact ⟨⟨h1.1, h1.2.1, h1.2.2⟩, h2.1, h3.1, h4.1⟩

end Users
